import Mathlib

/-!
Shallow embedding of `snap-server.mjs`, a WebSocket 1v1 relay server.

Connections (WebSocket objects) are modelled by natural-number identifiers.
Game ids in the source are the strings `"g" ++ n` for a monotone counter `n`;
since the prefix is constant this is in bijection with `n`, so ids are
modelled by their numeric part.  JS `Map`s are modelled by association lists
with JS `Map` semantics: `set` replaces in place or appends, `delete` removes
the entry, iteration follows insertion order (which `Map` guarantees).
JS numbers are modelled by `Rat` (the payloads the server touches are plain
JSON numbers; NaN never arises from `JSON.parse` of valid JSON literals
produced by clients, and the server does no arithmetic on them beyond
passing them through).  Scores are modelled by `Int` so that non-negativity
is a real invariant rather than a typing artifact.
-/

namespace SnapServer

/-- Identifier standing for one WebSocket object. -/
abbrev ConnId := Nat

/-- The two role slot names. -/
inductive Role where
  | p1
  | p2
deriving DecidableEq, Repr

/-- The opposite role (`fromRole === "p1" ? "p2" : "p1"`). -/
def Role.other : Role → Role
  | .p1 => .p2
  | .p2 => .p1

/-- Per-connection record stored in `clientMeta`:
`{ role: "p1"|"p2"|null, isAlive: boolean, gameId: string|null }`. -/
structure Meta where
  role : Option Role
  isAlive : Bool
  gameId : Option Nat
deriving DecidableEq, Repr

/-- One game (session): `{ id, roles: {p1, p2}, scores: {p1, p2} }`. -/
structure Game where
  id : Nat
  rolesP1 : Option ConnId
  rolesP2 : Option ConnId
  scoresP1 : Int
  scoresP2 : Int
deriving DecidableEq, Repr

/-- `game.roles[r]`. -/
def Game.roleSlot (g : Game) : Role → Option ConnId
  | .p1 => g.rolesP1
  | .p2 => g.rolesP2

/-- `game.roles[r] = v`. -/
def Game.setRoleSlot (g : Game) : Role → Option ConnId → Game
  | .p1, v => { g with rolesP1 := v }
  | .p2, v => { g with rolesP2 := v }

/-- `game.scores[r]`. -/
def Game.score (g : Game) : Role → Int
  | .p1 => g.scoresP1
  | .p2 => g.scoresP2

/-- The whole mutable server state: the `clientMeta` map, the `games` map
(in insertion order, which is creation order), and the `nextGameId` counter. -/
structure ServerState where
  clientMeta : List (ConnId × Meta)
  games : List Game
  nextGameId : Nat
deriving DecidableEq, Repr

/-- The initial state of the module: empty maps, `nextGameId = 1`. -/
def initState : ServerState := ⟨[], [], 1⟩

/-! ### JS `Map` operations as association-list operations -/

/-- `map.get(c)` on `clientMeta`. -/
def mlookup : List (ConnId × Meta) → ConnId → Option Meta
  | [], _ => none
  | (k, v) :: rest, c => if k = c then some v else mlookup rest c

/-- `map.set(c, v)` on `clientMeta`: replace in place, else append. -/
def mset : List (ConnId × Meta) → ConnId → Meta → List (ConnId × Meta)
  | [], c, v => [(c, v)]
  | (k, w) :: rest, c, v =>
      if k = c then (c, v) :: rest else (k, w) :: mset rest c v

/-- `map.delete(c)` on `clientMeta`. -/
def mdelete : List (ConnId × Meta) → ConnId → List (ConnId × Meta)
  | [], _ => []
  | (k, w) :: rest, c => if k = c then rest else (k, w) :: mdelete rest c

/-- In-place mutation of the `Meta` object stored under key `c`
(JS mutates the object held by the map). -/
def mupdate : List (ConnId × Meta) → ConnId → (Meta → Meta) → List (ConnId × Meta)
  | [], _, _ => []
  | (k, w) :: rest, c, f =>
      if k = c then (k, f w) :: rest else (k, w) :: mupdate rest c f

/-- `games.get(gid)`. -/
def getGame : List Game → Nat → Option Game
  | [], _ => none
  | g :: rest, gid => if g.id = gid then some g else getGame rest gid

/-- In-place mutation of the game object with `g2.id` (JS mutates the
object held by the map, so its position in iteration order is kept). -/
def setGame : List Game → Game → List Game
  | [], _ => []
  | g :: rest, g2 => if g.id = g2.id then g2 :: rest else g :: setGame rest g2

/-- `games.delete(gid)`. -/
def gamesDelete : List Game → Nat → List Game
  | [], _ => []
  | g :: rest, gid => if g.id = gid then rest else g :: gamesDelete rest gid

/-! ### JSON values (the result of `JSON.parse`) -/

/-- A decoded JS value.  `jsUndefined` stands for `undefined`, i.e. the result of
reading an absent property.  Objects are finite field maps; `JSON.parse`
yields at most one binding per key, so lookup takes the first binding. -/
inductive JVal where
  | null
  | jsUndefined
  | bool (b : Bool)
  | num (q : Rat)
  | str (s : String)
  | obj (fields : List (String × JVal))

/-- Property access `v[k]`: a field of an object, `undefined` otherwise. -/
def JVal.getField : JVal → String → JVal
  | .obj fs, k =>
      match fs.lookup k with
      | some v => v
      | none => .jsUndefined
  | _, _ => .jsUndefined

/-- JS truthiness (`!v` is the negation of this).  `NaN` is not
representable in the `Rat` model; see the header comment. -/
def JVal.truthy : JVal → Bool
  | .null => false
  | .jsUndefined => false
  | .bool b => b
  | .num q => q ≠ 0
  | .str s => s ≠ ""
  | .obj _ => true

/-- `typeof v === "number" ? some v : none`. -/
def JVal.asNum : JVal → Option Rat
  | .num q => some q
  | _ => none

/-- `typeof v === "string" ? some v : none`. -/
def JVal.asStr : JVal → Option String
  | .str s => some s
  | _ => none

/-! ### Outbound messages -/

/-- Messages the server sends.
In `shot`, `radius := none` and `color := none` model the `undefined`
fields that `JSON.stringify` omits from the wire message. -/
inductive OutMsg where
  | scoreUpdate (scoreP1 scoreP2 : Int) (pointsToWin : Int)
  | remoteState (src : Role) (snapX snapY crouch aimX aimY exposure : Rat)
      (targetX targetY targetZ : Option Rat) (t : Rat)
  | shot (src : Role) (start velocity : JVal) (radius : Option Rat)
      (color : Option JVal) (t : Rat)

/-- A batch of sends produced by handling one event, in order. -/
abbrev Sends := List (ConnId × OutMsg)

/-- The transport-layer environment: which sockets are currently in
`readyState === OPEN`, and the current wall clock `Date.now() / 1000`. -/
structure Env where
  openConn : ConnId → Bool
  now : Rat

/-- `matchConfig.pointsToWin`. -/
def pointsToWin : Int := 7

/-- `MAX_PLAYERS_PER_GAME`. -/
def MAX_PLAYERS_PER_GAME : Nat := 2

/-- `safeSend(ws, payload)`: dropped unless the socket is open.
(`JSON.stringify` cannot fail on the payloads this server builds.) -/
def safeSend (env : Env) (ws : ConnId) (msg : OutMsg) : Sends :=
  if env.openConn ws then [(ws, msg)] else []

/-- `getGameForSocket(ws)`. -/
def getGameForSocket (s : ServerState) (ws : ConnId) : Option Game :=
  match mlookup s.clientMeta ws with
  | none => none
  | some meta =>
      match meta.gameId with
      | none => none
      | some gid => getGame s.games gid

/-- `sendScoreUpdate(ws)`: score-update scoped to the target's own game. -/
def sendScoreUpdate (env : Env) (s : ServerState) (ws : ConnId) : Sends :=
  match getGameForSocket s ws with
  | none => []
  | some game =>
      safeSend env ws (.scoreUpdate game.scoresP1 game.scoresP2 pointsToWin)

/-- `broadcastScoreUpdateForGame(game)`: send to each present, open slot. -/
def broadcastScoreUpdateForGame (env : Env) (s : ServerState) (game : Game) :
    Sends :=
  [game.rolesP1, game.rolesP2].foldr
    (fun o acc =>
      match o with
      | some ws => (if env.openConn ws then sendScoreUpdate env s ws else []) ++ acc
      | none => acc)
    []

/-- `resetMatchForGame(game)`: zero both scores, then broadcast. -/
def resetMatchForGame (env : Env) (s : ServerState) (game : Game) :
    ServerState × Sends :=
  let game2 := { game with scoresP1 := 0, scoresP2 := 0 }
  let s2 := { s with games := setGame s.games game2 }
  (s2, broadcastScoreUpdateForGame env s2 game2)

/-- Steps 1-2 of `assignClientToGame`: the first-fit loop over
`games.values()` (`continue` on full games, pick on an empty `role` slot). -/
def findOpenGame (role : Role) : List Game → Option Game
  | [] => none
  | game :: rest =>
      let currentPlayers :=
        (if game.rolesP1.isSome then 1 else 0) +
          (if game.rolesP2.isSome then 1 else 0)
      if currentPlayers ≥ MAX_PLAYERS_PER_GAME then findOpenGame role rest
      else if (game.roleSlot role).isNone then some game
      else findOpenGame role rest

/-- Step 3 of `assignClientToGame`: claim the role slot in `targetGame`,
update the meta record, and sync the joiner's HUD. -/
def claimRole (env : Env) (s : ServerState) (ws : ConnId) (role : Role)
    (targetGame : Game) : ServerState × Sends :=
  let game2 := targetGame.setRoleSlot role (some ws)
  let s2 := { s with games := setGame s.games game2 }
  let s3 := { s2 with
    clientMeta :=
      mupdate s2.clientMeta ws
        (fun m => { m with role := some role, gameId := some game2.id }) }
  (s3, sendScoreUpdate env s3 ws)

/-- `assignClientToGame(ws, desiredRole)` after the already-assigned guard:
find-or-create a game, then claim the slot. -/
def assignFresh (env : Env) (s : ServerState) (ws : ConnId) (role : Role) :
    ServerState × Sends :=
  match findOpenGame role s.games with
  | some targetGame => claimRole env s ws role targetGame
  | none =>
      let gameId := s.nextGameId
      let targetGame : Game :=
        { id := gameId, rolesP1 := none, rolesP2 := none,
          scoresP1 := 0, scoresP2 := 0 }
      let s1 := { s with games := s.games ++ [targetGame],
                         nextGameId := s.nextGameId + 1 }
      claimRole env s1 ws role targetGame

/-- `assignClientToGame(ws, desiredRole)`. -/
def assignClientToGame (env : Env) (s : ServerState) (ws : ConnId)
    (desiredRole : String) : ServerState × Sends :=
  let role : Role := if desiredRole = "p2" then .p2 else .p1
  match mlookup s.clientMeta ws with
  | none =>
      let s1 := { s with
        clientMeta := mset s.clientMeta ws ⟨none, true, none⟩ }
      assignFresh env s1 ws role
  | some meta =>
      if meta.gameId.isSome ∧ meta.role.isSome then
        (s, sendScoreUpdate env s ws)
      else
        assignFresh env s ws role

/-- `handleHello(ws, data)`. -/
def handleHello (env : Env) (s : ServerState) (ws : ConnId) (data : JVal) :
    ServerState × Sends :=
  let desiredRole :=
    if data.truthy && ((data.getField "role").asStr == some "p2")
    then "p2" else "p1"
  assignClientToGame env s ws desiredRole

/-- The `remote-state` payload built by `handleState`: each numeric field
is `typeof x === "number" ? x : 0`, the target fields are
`typeof x === "number" ? x : null`. -/
def stateMsg (fromRole : Role) (data : JVal) : OutMsg :=
  .remoteState fromRole
    ((data.getField "snapX").asNum.getD 0)
    ((data.getField "snapY").asNum.getD 0)
    ((data.getField "crouch").asNum.getD 0)
    ((data.getField "aimX").asNum.getD 0)
    ((data.getField "aimY").asNum.getD 0)
    ((data.getField "exposure").asNum.getD 0)
    (data.getField "targetX").asNum
    (data.getField "targetY").asNum
    (data.getField "targetZ").asNum
    ((data.getField "t").asNum.getD 0)

/-- `handleState(ws, data)`: relay a state frame to the peer slot.
Never mutates state, so it only returns the sends. -/
def handleState (env : Env) (s : ServerState) (ws : ConnId) (data : JVal) :
    Sends :=
  match mlookup s.clientMeta ws with
  | none => []
  | some meta =>
      match meta.role, meta.gameId with
      | some fromRole, some gid =>
          match getGame s.games gid with
          | none => []
          | some game =>
              let toRole := fromRole.other
              match game.roleSlot toRole with
              | none => []
              | some dest =>
                  if env.openConn dest then
                    safeSend env dest (stateMsg fromRole data)
                  else []
      | _, _ => []

/-- The `shot` payload built by `handleShot`: `start`/`velocity` are the
JS coercions `x || null`, `radius` is `typeof x === "number" ? x :
undefined`, `color` is `x || undefined`, and `t` falls back to the
server's current time `Date.now() / 1000`. -/
def shotMsg (env : Env) (fromRole : Role) (data : JVal) : OutMsg :=
  .shot fromRole
    (if (data.getField "start").truthy then data.getField "start" else .null)
    (if (data.getField "velocity").truthy then data.getField "velocity" else .null)
    (data.getField "radius").asNum
    (if (data.getField "color").truthy then some (data.getField "color") else none)
    ((data.getField "t").asNum.getD env.now)

/-- `handleShot(ws, data)`: relay a shot to the peer slot. -/
def handleShot (env : Env) (s : ServerState) (ws : ConnId) (data : JVal) :
    Sends :=
  match mlookup s.clientMeta ws with
  | none => []
  | some meta =>
      match meta.role, meta.gameId with
      | some fromRole, some gid =>
          match getGame s.games gid with
          | none => []
          | some game =>
              let toRole := fromRole.other
              match game.roleSlot toRole with
              | none => []
              | some dest =>
                  if env.openConn dest then
                    safeSend env dest (shotMsg env fromRole data)
                  else []
      | _, _ => []

/-- The `kind` computation of `handleHit`:
`data && typeof data.kind === "string" ? data.kind : "enemy"`. -/
def hitKind (data : JVal) : String :=
  if data.truthy then
    match (data.getField "kind").asStr with
    | some k => k
    | none => "enemy"
  else "enemy"

/-- `handleHit(ws, data)`: a `kind` that is missing or not a string
defaults to `"enemy"`; only `"enemy"` scores. -/
def handleHit (env : Env) (s : ServerState) (ws : ConnId) (data : JVal) :
    ServerState × Sends :=
  match mlookup s.clientMeta ws with
  | none => (s, [])
  | some meta =>
      match meta.role, meta.gameId with
      | some fromRole, some gid =>
          match getGame s.games gid with
          | none => (s, [])
          | some game =>
              let kind := hitKind data
              if kind = "enemy" then
                let game2 :=
                  if fromRole = .p1 then
                    { game with scoresP1 := game.scoresP1 + 1 }
                  else
                    { game with scoresP2 := game.scoresP2 + 1 }
                let s2 := { s with games := setGame s.games game2 }
                (s2, broadcastScoreUpdateForGame env s2 game2)
              else (s, [])
      | _, _ => (s, [])

/-- `handleResetMatch(ws)`: needs a game but not a role. -/
def handleResetMatch (env : Env) (s : ServerState) (ws : ConnId) :
    ServerState × Sends :=
  match mlookup s.clientMeta ws with
  | none => (s, [])
  | some meta =>
      match meta.gameId with
      | none => (s, [])
      | some gid =>
          match getGame s.games gid with
          | none => (s, [])
          | some game => resetMatchForGame env s game

/-- The `message` listener: parse (a `none` payload stands for a
`JSON.parse` failure), check `type`, dispatch. -/
def onMessage (env : Env) (s : ServerState) (ws : ConnId) (raw : Option JVal) :
    ServerState × Sends :=
  match raw with
  | none => (s, [])
  | some data =>
      if data.truthy then
        match (data.getField "type").asStr with
        | none => (s, [])
        | some ty =>
            if ty = "hello" then handleHello env s ws data
            else if ty = "state" then (s, handleState env s ws data)
            else if ty = "shot" then (s, handleShot env s ws data)
            else if ty = "hit" then handleHit env s ws data
            else if ty = "reset-match" then handleResetMatch env s ws
            else (s, [])
      else (s, [])

/-- The `connection` listener: install a fresh meta record. -/
def onConnect (s : ServerState) (ws : ConnId) : ServerState :=
  { s with clientMeta := mset s.clientMeta ws ⟨none, true, none⟩ }

/-- The `pong` listener: mark the connection alive. -/
def onPong (s : ServerState) (ws : ConnId) : ServerState :=
  { s with clientMeta := mupdate s.clientMeta ws (fun m => { m with isAlive := true }) }

/-- The `close` listener: clear the slot (only if it still points at this
socket), delete the game when both slots are empty, drop the meta record. -/
def onClose (s : ServerState) (ws : ConnId) : ServerState :=
  let s1 :=
    match mlookup s.clientMeta ws with
    | none => s
    | some meta =>
        match meta.gameId with
        | none => s
        | some gid =>
            match getGame s.games gid, meta.role with
            | some game, some r =>
                let game2 :=
                  if game.roleSlot r = some ws then game.setRoleSlot r none
                  else game
                let stillP1 := game2.rolesP1.isSome
                let stillP2 := game2.rolesP2.isSome
                if ¬stillP1 ∧ ¬stillP2 then
                  { s with games := gamesDelete (setGame s.games game2) gid }
                else
                  { s with games := setGame s.games game2 }
            | _, _ => s
  { s1 with clientMeta := mdelete s1.clientMeta ws }

/-- The body of the heartbeat loop over `wss.clients`:
collect terminated sockets, flip `isAlive` and ping the rest.
Returns the updated map, terminated sockets, pinged sockets (in order). -/
def heartbeatLoop :
    List ConnId → List (ConnId × Meta) →
      List (ConnId × Meta) × List ConnId × List ConnId
  | [], cm => (cm, [], [])
  | ws :: rest, cm =>
      match mlookup cm ws with
      | none => heartbeatLoop rest cm
      | some meta =>
          if meta.isAlive then
            let cm2 := mupdate cm ws (fun m => { m with isAlive := false })
            let (cm3, term, pinged) := heartbeatLoop rest cm2
            (cm3, term, ws :: pinged)
          else
            let (cm3, term, pinged) := heartbeatLoop rest cm
            (cm3, ws :: term, pinged)

/-- One heartbeat tick.  `ws.terminate()` queues the socket's `close`
event, which the event loop delivers after the interval callback returns,
so the cleanups run (in order) after the sweep. -/
def heartbeatTick (s : ServerState) :
    ServerState × List ConnId × List ConnId :=
  let conns := s.clientMeta.map Prod.fst
  let (cm2, term, pinged) := heartbeatLoop conns s.clientMeta
  let s2 := { s with clientMeta := cm2 }
  (term.foldl onClose s2, term, pinged)

/-! ### Event-level transition system -/

/-- An external stimulus delivered by the transport layer or the timer. -/
inductive Event where
  | connect (c : ConnId)
  | message (c : ConnId) (raw : Option JVal)
  | close (c : ConnId)
  | pong (c : ConnId)
  | tick

/-- One step of the server. -/
def step (env : Env) (s : ServerState) : Event → ServerState × Sends
  | .connect c => (onConnect s c, [])
  | .message c raw => onMessage env s c raw
  | .close c => (onClose s c, [])
  | .pong c => (onPong s c, [])
  | .tick => ((heartbeatTick s).1, [])

/-- Transport-layer discipline: the `connection` event fires exactly once
per socket object, so a `connect` only arrives for a socket with no
record.  (All other events are unrestricted, a superset of real traces.) -/
def WfEvent (s : ServerState) : Event → Prop
  | .connect c => mlookup s.clientMeta c = none
  | _ => True

/-- States reachable from module initialisation by well-formed events,
under an arbitrary (per-step) transport environment. -/
inductive Reachable : ServerState → Prop where
  | init : Reachable initState
  | step (env : Env) (s : ServerState) (e : Event) :
      Reachable s → WfEvent s e → Reachable (step env s e).1

/-! ### Association-list lemmas -/

theorem mlookup_mset_self (m : List (ConnId × Meta)) (c : ConnId) (v : Meta) :
    mlookup (mset m c v) c = some v := by
  induction m with
  | nil => simp [mset, mlookup]
  | cons kw rest ih =>
      obtain ⟨k, w⟩ := kw
      by_cases h : k = c <;> simp [mset, mlookup, h, ih]

theorem mlookup_mset_ne (m : List (ConnId × Meta)) (c d : ConnId) (v : Meta)
    (h : d ≠ c) : mlookup (mset m c v) d = mlookup m d := by
  have hcd : c ≠ d := fun h' => h h'.symm
  induction m with
  | nil => simp [mset, mlookup, hcd]
  | cons kw rest ih =>
      obtain ⟨k, w⟩ := kw
      by_cases hk : k = c
      · subst hk
        simp [mset, mlookup, hcd]
      · by_cases hd : k = d
        · subst hd
          simp [mset, mlookup, hk]
        · simp [mset, mlookup, hk, hd, ih]

theorem mlookup_mupdate_self (m : List (ConnId × Meta)) (c : ConnId)
    (f : Meta → Meta) :
    mlookup (mupdate m c f) c = (mlookup m c).map f := by
  induction m with
  | nil => simp [mupdate, mlookup]
  | cons kw rest ih =>
      obtain ⟨k, w⟩ := kw
      by_cases h : k = c <;> simp [mupdate, mlookup, h, ih]

theorem mlookup_mupdate_ne (m : List (ConnId × Meta)) (c d : ConnId)
    (f : Meta → Meta) (h : d ≠ c) :
    mlookup (mupdate m c f) d = mlookup m d := by
  have hcd : c ≠ d := fun h' => h h'.symm
  induction m with
  | nil => simp [mupdate]
  | cons kw rest ih =>
      obtain ⟨k, w⟩ := kw
      by_cases hk : k = c
      · subst hk
        simp [mupdate, mlookup, hcd]
      · by_cases hd : k = d
        · subst hd
          simp [mupdate, mlookup, hk]
        · simp [mupdate, mlookup, hk, hd, ih]

theorem mlookup_mdelete_ne (m : List (ConnId × Meta)) (c d : ConnId)
    (h : d ≠ c) : mlookup (mdelete m c) d = mlookup m d := by
  have hcd : c ≠ d := fun h' => h h'.symm
  induction m with
  | nil => simp [mdelete]
  | cons kw rest ih =>
      obtain ⟨k, w⟩ := kw
      by_cases hk : k = c
      · subst hk
        simp [mdelete, mlookup, hcd]
      · by_cases hd : k = d
        · subst hd
          simp [mdelete, mlookup, hk]
        · simp [mdelete, mlookup, hk, hd, ih]

theorem mlookup_eq_none_of_not_mem (m : List (ConnId × Meta)) (c : ConnId)
    (h : c ∉ m.map Prod.fst) : mlookup m c = none := by
  induction m with
  | nil => simp [mlookup]
  | cons kw rest ih =>
      obtain ⟨k, w⟩ := kw
      simp only [List.map_cons, List.mem_cons] at h
      push_neg at h
      have hk : k ≠ c := fun h' => h.1 h'.symm
      simp [mlookup, hk, ih h.2]

theorem mlookup_isSome_of_mem (m : List (ConnId × Meta)) (c : ConnId)
    (h : c ∈ m.map Prod.fst) : (mlookup m c).isSome := by
  induction m with
  | nil => simp at h
  | cons kw rest ih =>
      obtain ⟨k, w⟩ := kw
      by_cases hk : k = c
      · simp [mlookup, hk]
      · have hmem : c ∈ rest.map Prod.fst := by
          simp only [List.map_cons, List.mem_cons] at h
          rcases h with h | h
          · exact absurd h.symm hk
          · exact h
        simp [mlookup, hk, ih hmem]

theorem mlookup_mdelete_self (m : List (ConnId × Meta)) (c : ConnId)
    (h : (m.map Prod.fst).Nodup) : mlookup (mdelete m c) c = none := by
  induction m with
  | nil => simp [mdelete, mlookup]
  | cons kw rest ih =>
      obtain ⟨k, w⟩ := kw
      simp only [List.map_cons, List.nodup_cons] at h
      by_cases hk : k = c
      · subst hk
        simp only [mdelete, if_pos rfl]
        exact mlookup_eq_none_of_not_mem rest k h.1
      · simp [mdelete, mlookup, hk, ih h.2]

theorem keys_mupdate (m : List (ConnId × Meta)) (c : ConnId) (f : Meta → Meta) :
    (mupdate m c f).map Prod.fst = m.map Prod.fst := by
  induction m with
  | nil => simp [mupdate]
  | cons kw rest ih =>
      obtain ⟨k, w⟩ := kw
      by_cases h : k = c <;> simp [mupdate, h, ih]

theorem keys_mset_of_none (m : List (ConnId × Meta)) (c : ConnId) (v : Meta)
    (h : mlookup m c = none) :
    (mset m c v).map Prod.fst = m.map Prod.fst ++ [c] := by
  induction m with
  | nil => simp [mset]
  | cons kw rest ih =>
      obtain ⟨k, w⟩ := kw
      simp only [mlookup] at h
      by_cases hk : k = c
      · simp [hk] at h
      · rw [if_neg hk] at h
        simp [mset, hk, ih h]

theorem keys_mset_of_some (m : List (ConnId × Meta)) (c : ConnId) (v : Meta)
    (h : (mlookup m c).isSome) :
    (mset m c v).map Prod.fst = m.map Prod.fst := by
  induction m with
  | nil => simp [mlookup] at h
  | cons kw rest ih =>
      obtain ⟨k, w⟩ := kw
      by_cases hk : k = c
      · simp [mset, hk]
      · simp only [mlookup, if_neg hk] at h
        simp [mset, hk, ih h]

theorem keys_nodup_mset (m : List (ConnId × Meta)) (c : ConnId) (v : Meta)
    (h : (m.map Prod.fst).Nodup) : ((mset m c v).map Prod.fst).Nodup := by
  rcases hc : mlookup m c with _ | w
  · rw [keys_mset_of_none m c v hc]
    have hnm : c ∉ m.map Prod.fst := by
      intro hmem
      have hs := mlookup_isSome_of_mem m c hmem
      rw [hc] at hs
      simp at hs
    simp [List.nodup_append, h, hnm]
  · rw [keys_mset_of_some m c v (by simp [hc])]
    exact h

theorem keys_mdelete_sublist (m : List (ConnId × Meta)) (c : ConnId) :
    ((mdelete m c).map Prod.fst).Sublist (m.map Prod.fst) := by
  induction m with
  | nil => simp [mdelete]
  | cons kw rest ih =>
      obtain ⟨k, w⟩ := kw
      by_cases h : k = c
      · simp only [mdelete, if_pos h, List.map_cons]
        exact List.sublist_cons_self _ _
      · simp only [mdelete, if_neg h, List.map_cons]
        exact ih.cons₂ k

theorem keys_nodup_mdelete (m : List (ConnId × Meta)) (c : ConnId)
    (h : (m.map Prod.fst).Nodup) : ((mdelete m c).map Prod.fst).Nodup :=
  (keys_mdelete_sublist m c).nodup h

/-! ### Game-list lemmas -/

theorem Game.id_setRoleSlot (g : Game) (r : Role) (v : Option ConnId) :
    (g.setRoleSlot r v).id = g.id := by
  cases r <;> rfl

theorem Game.roleSlot_setRoleSlot_self (g : Game) (r : Role) (v : Option ConnId) :
    (g.setRoleSlot r v).roleSlot r = v := by
  cases r <;> rfl

theorem Game.roleSlot_setRoleSlot_ne (g : Game) (r r' : Role) (v : Option ConnId)
    (h : r' ≠ r) : (g.setRoleSlot r v).roleSlot r' = g.roleSlot r' := by
  cases r <;> cases r' <;> first | rfl | exact absurd rfl h

theorem Game.scoresP1_setRoleSlot (g : Game) (r : Role) (v : Option ConnId) :
    (g.setRoleSlot r v).scoresP1 = g.scoresP1 := by
  cases r <;> rfl

theorem Game.scoresP2_setRoleSlot (g : Game) (r : Role) (v : Option ConnId) :
    (g.setRoleSlot r v).scoresP2 = g.scoresP2 := by
  cases r <;> rfl

theorem getGame_mem {l : List Game} {gid : Nat} {g : Game}
    (h : getGame l gid = some g) : g ∈ l ∧ g.id = gid := by
  induction l with
  | nil => simp [getGame] at h
  | cons x rest ih =>
      by_cases hx : x.id = gid
      · rw [getGame, if_pos hx] at h
        cases h
        exact ⟨List.mem_cons_self _ _, hx⟩
      · rw [getGame, if_neg hx] at h
        obtain ⟨h1, h2⟩ := ih h
        exact ⟨List.mem_cons_of_mem x h1, h2⟩

theorem getGame_eq_none_of_not_mem (l : List Game) (gid : Nat)
    (h : gid ∉ l.map Game.id) : getGame l gid = none := by
  induction l with
  | nil => simp [getGame]
  | cons x rest ih =>
      simp only [List.map_cons, List.mem_cons] at h
      push_neg at h
      have hx : x.id ≠ gid := fun h' => h.1 h'.symm
      simp [getGame, hx, ih h.2]

theorem getGame_of_mem_nodup {l : List Game} {g : Game}
    (hn : (l.map Game.id).Nodup) (h : g ∈ l) : getGame l g.id = some g := by
  induction l with
  | nil => simp at h
  | cons x rest ih =>
      simp only [List.map_cons, List.nodup_cons] at hn
      rcases List.mem_cons.mp h with h | h
      · subst h
        simp [getGame]
      · have hne : x.id ≠ g.id := by
          intro he
          exact hn.1 (he ▸ List.mem_map_of_mem Game.id h)
        simp [getGame, hne, ih hn.2 h]

theorem eq_of_mem_nodup_id {l : List Game} {g g' : Game}
    (hn : (l.map Game.id).Nodup) (h : g ∈ l) (h' : g' ∈ l)
    (hid : g.id = g'.id) : g = g' := by
  have h1 := getGame_of_mem_nodup hn h
  have h2 := getGame_of_mem_nodup hn h'
  rw [hid] at h1
  rw [h1] at h2
  exact (Option.some.injEq _ _ ▸ h2)

theorem ids_setGame (l : List Game) (g2 : Game) :
    (setGame l g2).map Game.id = l.map Game.id := by
  induction l with
  | nil => simp [setGame]
  | cons x rest ih =>
      by_cases hx : x.id = g2.id
      · simp [setGame, hx]
      · simp [setGame, hx, ih]

theorem mem_setGame {l : List Game} {g2 x : Game}
    (h : x ∈ setGame l g2) : x = g2 ∨ x ∈ l := by
  induction l with
  | nil => simp [setGame] at h
  | cons y rest ih =>
      by_cases hy : y.id = g2.id
      · rw [setGame, if_pos hy] at h
        rcases List.mem_cons.mp h with h | h
        · exact Or.inl h
        · exact Or.inr (List.mem_cons_of_mem y h)
      · rw [setGame, if_neg hy] at h
        rcases List.mem_cons.mp h with h | h
        · exact Or.inr (h ▸ List.mem_cons_self y rest)
        · rcases ih h with h | h
          · exact Or.inl h
          · exact Or.inr (List.mem_cons_of_mem y h)

theorem mem_setGame_of_ne {l : List Game} {g g2 : Game}
    (h : g ∈ l) (hne : g.id ≠ g2.id) : g ∈ setGame l g2 := by
  induction l with
  | nil => simp at h
  | cons y rest ih =>
      rcases List.mem_cons.mp h with h | h
      · subst h
        rw [setGame, if_neg hne]
        exact List.mem_cons_self g (setGame rest g2)
      · by_cases hy : y.id = g2.id
        · rw [setGame, if_pos hy]
          exact List.mem_cons_of_mem g2 h
        · rw [setGame, if_neg hy]
          exact List.mem_cons_of_mem y (ih h)

theorem mem_setGame_self {l : List Game} {g2 : Game}
    (h : (getGame l g2.id).isSome) : g2 ∈ setGame l g2 := by
  induction l with
  | nil => simp [getGame] at h
  | cons y rest ih =>
      by_cases hy : y.id = g2.id
      · rw [setGame, if_pos hy]
        exact List.mem_cons_self g2 rest
      · rw [setGame, if_neg hy]
        rw [getGame, if_neg hy] at h
        exact List.mem_cons_of_mem y (ih h)

theorem getGame_setGame_self {l : List Game} {g g2 : Game}
    (h : getGame l g2.id = some g) :
    getGame (setGame l g2) g2.id = some g2 := by
  induction l with
  | nil => simp [getGame] at h
  | cons y rest ih =>
      by_cases hy : y.id = g2.id
      · rw [setGame, if_pos hy, getGame, if_pos rfl]
      · rw [setGame, if_neg hy, getGame, if_neg hy]
        rw [getGame, if_neg hy] at h
        exact ih h

theorem getGame_setGame_ne (l : List Game) (g2 : Game) (gid : Nat)
    (h : gid ≠ g2.id) : getGame (setGame l g2) gid = getGame l gid := by
  induction l with
  | nil => simp [setGame, getGame]
  | cons y rest ih =>
      by_cases hy : y.id = g2.id
      · rw [setGame, if_pos hy, getGame, getGame]
        have : ¬ g2.id = gid := fun h' => h h'.symm
        have hyg : ¬ y.id = gid := by
          rw [hy]
          exact this
        rw [if_neg this, if_neg hyg]
      · rw [setGame, if_neg hy, getGame, getGame]
        by_cases hyg : y.id = gid
        · rw [if_pos hyg, if_pos hyg]
        · rw [if_neg hyg, if_neg hyg]
          exact ih

theorem not_mem_setGame {l : List Game} {g g2 : Game}
    (hn : (l.map Game.id).Nodup) (hne : g ≠ g2) (hid : g.id = g2.id)
    (h : g ∈ l) : g ∉ setGame l g2 := by
  intro hmem
  rcases mem_setGame hmem with h' | h'
  · exact hne h'
  · have hg2 : g2 ∈ setGame l g2 :=
      mem_setGame_self (by rw [← hid, getGame_of_mem_nodup hn h]; rfl)
    have hnod : ((setGame l g2).map Game.id).Nodup := by
      rw [ids_setGame]
      exact hn
    exact hne (eq_of_mem_nodup_id hnod hmem hg2 hid)

theorem mem_gamesDelete {l : List Game} {gid : Nat} {x : Game}
    (h : x ∈ gamesDelete l gid) : x ∈ l := by
  induction l with
  | nil => simp [gamesDelete] at h
  | cons y rest ih =>
      by_cases hy : y.id = gid
      · rw [gamesDelete, if_pos hy] at h
        exact List.mem_cons_of_mem y h
      · rw [gamesDelete, if_neg hy] at h
        rcases List.mem_cons.mp h with h | h
        · exact h ▸ List.mem_cons_self y rest
        · exact List.mem_cons_of_mem y (ih h)

theorem mem_gamesDelete_of_ne {l : List Game} {gid : Nat} {g : Game}
    (h : g ∈ l) (hne : g.id ≠ gid) : g ∈ gamesDelete l gid := by
  induction l with
  | nil => simp at h
  | cons y rest ih =>
      by_cases hy : y.id = gid
      · rw [gamesDelete, if_pos hy]
        rcases List.mem_cons.mp h with h | h
        · exact absurd (h ▸ hy) hne
        · exact h
      · rw [gamesDelete, if_neg hy]
        rcases List.mem_cons.mp h with h | h
        · exact h ▸ List.mem_cons_self y (gamesDelete rest gid)
        · exact List.mem_cons_of_mem y (ih h)

theorem ids_gamesDelete_sublist (l : List Game) (gid : Nat) :
    ((gamesDelete l gid).map Game.id).Sublist (l.map Game.id) := by
  induction l with
  | nil => simp [gamesDelete]
  | cons y rest ih =>
      by_cases hy : y.id = gid
      · simp only [gamesDelete, if_pos hy, List.map_cons]
        exact List.sublist_cons_self _ _
      · simp only [gamesDelete, if_neg hy, List.map_cons]
        exact ih.cons₂ y.id

theorem id_ne_of_mem_gamesDelete {l : List Game} {gid : Nat} {x : Game}
    (hn : (l.map Game.id).Nodup) (h : x ∈ gamesDelete l gid) : x.id ≠ gid := by
  induction l with
  | nil => simp [gamesDelete] at h
  | cons y rest ih =>
      simp only [List.map_cons, List.nodup_cons] at hn
      by_cases hy : y.id = gid
      · rw [gamesDelete, if_pos hy] at h
        intro he
        exact hn.1 (hy ▸ he ▸ List.mem_map_of_mem Game.id h)
      · rw [gamesDelete, if_neg hy] at h
        rcases List.mem_cons.mp h with h | h
        · exact h ▸ hy
        · exact ih hn.2 h

theorem getGame_gamesDelete_ne (l : List Game) (gid gid' : Nat)
    (h : gid' ≠ gid) : getGame (gamesDelete l gid) gid' = getGame l gid' := by
  induction l with
  | nil => simp [gamesDelete]
  | cons y rest ih =>
      by_cases hy : y.id = gid
      · rw [gamesDelete, if_pos hy, getGame]
        have : ¬ y.id = gid' := by
          rw [hy]
          exact fun h' => h h'.symm
        rw [if_neg this]
      · rw [gamesDelete, if_neg hy, getGame, getGame]
        by_cases hyg : y.id = gid'
        · rw [if_pos hyg, if_pos hyg]
        · rw [if_neg hyg, if_neg hyg]
          exact ih

theorem findOpenGame_mem {r : Role} {l : List Game} {g : Game}
    (h : findOpenGame r l = some g) : g ∈ l ∧ g.roleSlot r = none := by
  induction l with
  | nil => simp [findOpenGame] at h
  | cons y rest ih =>
      simp only [findOpenGame] at h
      by_cases hfull :
          ((if y.rolesP1.isSome = true then 1 else 0) +
            (if y.rolesP2.isSome = true then 1 else 0) : Nat) ≥
            MAX_PLAYERS_PER_GAME
      · rw [if_pos hfull] at h
        obtain ⟨h1, h2⟩ := ih h
        exact ⟨List.mem_cons_of_mem y h1, h2⟩
      · rw [if_neg hfull] at h
        by_cases hempty : (y.roleSlot r).isNone = true
        · rw [if_pos hempty] at h
          cases h
          exact ⟨List.mem_cons_self _ _, Option.isNone_iff_eq_none.mp hempty⟩
        · rw [if_neg hempty] at h
          obtain ⟨h1, h2⟩ := ih h
          exact ⟨List.mem_cons_of_mem y h1, h2⟩

/-! ### The inductive invariant -/

/-- A meta record is consistent with the session store: either fully
unassigned, or pointing at an existing game whose named slot holds
exactly this connection. -/
def metaOk (s : ServerState) (c : ConnId) (m : Meta) : Prop :=
  (m.role = none ∧ m.gameId = none) ∨
  (∃ r gid g, m.role = some r ∧ m.gameId = some gid ∧
    g ∈ s.games ∧ g.id = gid ∧ g.roleSlot r = some c)

/-- `metaOk` only depends on the games list and on the `role`/`gameId`
fields of the record. -/
theorem metaOk_transfer {s s' : ServerState} {c : ConnId} {m m' : Meta}
    (hg : s.games = s'.games) (hr : m'.role = m.role)
    (hi : m'.gameId = m.gameId) (h : metaOk s c m) : metaOk s' c m' := by
  rcases h with ⟨h1, h2⟩ | ⟨r, gid, g, h1, h2, h3, h4, h5⟩
  · exact Or.inl ⟨by rw [hr, h1], by rw [hi, h2]⟩
  · exact Or.inr ⟨r, gid, g, by rw [hr, h1], by rw [hi, h2], hg ▸ h3, h4, h5⟩

/-- Every occupied slot points back to a meta record bound to it. -/
def slotsOk (s : ServerState) : Prop :=
  ∀ g ∈ s.games, ∀ r c, g.roleSlot r = some c →
    ∃ m, mlookup s.clientMeta c = some m ∧ m.role = some r ∧
      m.gameId = some g.id

/-- The full inductive invariant of the server state. -/
def Inv (s : ServerState) : Prop :=
  (s.clientMeta.map Prod.fst).Nodup ∧
  (s.games.map Game.id).Nodup ∧
  (∀ g ∈ s.games, g.id < s.nextGameId) ∧
  slotsOk s ∧
  (∀ c m, mlookup s.clientMeta c = some m → metaOk s c m) ∧
  (∀ g ∈ s.games, 0 ≤ g.scoresP1 ∧ 0 ≤ g.scoresP2)

theorem inv_initState : Inv initState := by
  refine ⟨?_, ?_, ?_, ?_, ?_, ?_⟩ <;> simp [initState, slotsOk, mlookup]

/-- A connection with a fully unassigned meta record occupies no slot. -/
theorem no_slot_of_unassigned {s : ServerState} {c : ConnId} {m : Meta}
    (hInv : Inv s) (hm : mlookup s.clientMeta c = some m)
    (hrole : m.role = none) :
    ∀ g ∈ s.games, ∀ r, g.roleSlot r ≠ some c := by
  intro g hg r hslot
  obtain ⟨m', hm', hrole', _⟩ := hInv.2.2.2.1 g hg r c hslot
  rw [hm] at hm'
  cases hm'
  rw [hrole] at hrole'
  cases hrole'

/-- A connection with no meta record occupies no slot. -/
theorem no_slot_of_no_meta {s : ServerState} {c : ConnId}
    (hInv : Inv s) (hm : mlookup s.clientMeta c = none) :
    ∀ g ∈ s.games, ∀ r, g.roleSlot r ≠ some c := by
  intro g hg r hslot
  obtain ⟨m', hm', _, _⟩ := hInv.2.2.2.1 g hg r c hslot
  rw [hm] at hm'
  cases hm'

theorem inv_onConnect {s : ServerState} {c : ConnId}
    (hInv : Inv s) (hfresh : mlookup s.clientMeta c = none) :
    Inv (onConnect s c) := by
  obtain ⟨hKeys, hIds, hBound, hSlots, hMetas, hScores⟩ := hInv
  have hnew : ∀ d, mlookup (mset s.clientMeta c ⟨none, true, none⟩) d =
      if d = c then some ⟨none, true, none⟩ else mlookup s.clientMeta d := by
    intro d
    by_cases hd : d = c
    · subst hd
      simp [mlookup_mset_self]
    · simp [mlookup_mset_ne _ _ _ _ hd, hd]
  refine ⟨keys_nodup_mset _ _ _ hKeys, hIds, hBound, ?_, ?_, hScores⟩
  · intro g hg r d hslot
    obtain ⟨m, hm, h1, h2⟩ := hSlots g hg r d hslot
    refine ⟨m, ?_, h1, h2⟩
    show mlookup (mset s.clientMeta c ⟨none, true, none⟩) d = some m
    rw [hnew d]
    by_cases hd : d = c
    · subst hd
      rw [hfresh] at hm
      cases hm
    · rw [if_neg hd]
      exact hm
  · intro d m hm
    rw [show (onConnect s c).clientMeta =
      mset s.clientMeta c ⟨none, true, none⟩ from rfl, hnew d] at hm
    by_cases hd : d = c
    · rw [if_pos hd] at hm
      cases hm
      exact Or.inl ⟨rfl, rfl⟩
    · rw [if_neg hd] at hm
      exact metaOk_transfer rfl rfl rfl (hMetas d m hm)

theorem inv_onPong {s : ServerState} {c : ConnId} (hInv : Inv s) :
    Inv (onPong s c) := by
  obtain ⟨hKeys, hIds, hBound, hSlots, hMetas, hScores⟩ := hInv
  have hl : ∀ d, mlookup (mupdate s.clientMeta c
      (fun m => { m with isAlive := true })) d =
      (mlookup s.clientMeta d).map
        (fun m => if d = c then { m with isAlive := true } else m) := by
    intro d
    by_cases hd : d = c
    · subst hd
      rw [mlookup_mupdate_self]
      cases mlookup s.clientMeta d <;> simp
    · rw [mlookup_mupdate_ne _ _ _ _ hd]
      cases mlookup s.clientMeta d <;> simp [hd]
  constructor
  · simpa [onPong, keys_mupdate] using hKeys
  refine ⟨hIds, hBound, ?_, ?_, hScores⟩
  · intro g hg r d hslot
    obtain ⟨m, hm, h1, h2⟩ := hSlots g hg r d hslot
    refine ⟨if d = c then { m with isAlive := true } else m, ?_, ?_, ?_⟩
    · show mlookup (mupdate s.clientMeta c _) d = _
      rw [hl d, hm]
      rfl
    · by_cases hd : d = c <;> simp [hd, h1]
    · by_cases hd : d = c <;> simp [hd, h2]
  · intro d m hm
    rw [show (onPong s c).clientMeta = mupdate s.clientMeta c
        (fun m => { m with isAlive := true }) from rfl, hl d] at hm
    rcases hd : mlookup s.clientMeta d with _ | m0
    · rw [hd] at hm
      cases hm
    · rw [hd] at hm
      have hok := hMetas d m0 hd
      simp only [Option.map_some'] at hm
      cases hm
      by_cases hdc : d = c
      · exact metaOk_transfer rfl (by simp [hdc]) (by simp [hdc]) hok
      · exact metaOk_transfer rfl (by simp [hdc]) (by simp [hdc]) hok

/-! ### Shape of `onClose` in each scenario -/

theorem onClose_of_no_meta {s : ServerState} {c : ConnId}
    (hm : mlookup s.clientMeta c = none) :
    onClose s c = { s with clientMeta := mdelete s.clientMeta c } := by
  unfold onClose
  rw [hm]

theorem onClose_of_no_gid {s : ServerState} {c : ConnId} {meta : Meta}
    (hm : mlookup s.clientMeta c = some meta) (hgid : meta.gameId = none) :
    onClose s c = { s with clientMeta := mdelete s.clientMeta c } := by
  unfold onClose
  rw [hm]
  simp only [hgid]

theorem onClose_of_no_game {s : ServerState} {c : ConnId} {meta : Meta}
    {gid : Nat} (hm : mlookup s.clientMeta c = some meta)
    (hgid : meta.gameId = some gid) (hg : getGame s.games gid = none) :
    onClose s c = { s with clientMeta := mdelete s.clientMeta c } := by
  unfold onClose
  rw [hm]
  simp only [hgid, hg]

theorem onClose_of_no_role {s : ServerState} {c : ConnId} {meta : Meta}
    {gid : Nat} {game : Game} (hm : mlookup s.clientMeta c = some meta)
    (hgid : meta.gameId = some gid) (hg : getGame s.games gid = some game)
    (hr : meta.role = none) :
    onClose s c = { s with clientMeta := mdelete s.clientMeta c } := by
  unfold onClose
  rw [hm]
  simp only [hgid, hg, hr]

theorem onClose_main {s : ServerState} {c : ConnId} {meta : Meta}
    {gid : Nat} {game : Game} {r : Role}
    (hm : mlookup s.clientMeta c = some meta)
    (hgid : meta.gameId = some gid) (hg : getGame s.games gid = some game)
    (hr : meta.role = some r) :
    onClose s c =
      (let game2 :=
        if game.roleSlot r = some c then game.setRoleSlot r none else game
      if ¬game2.rolesP1.isSome ∧ ¬game2.rolesP2.isSome then
        { s with games := gamesDelete (setGame s.games game2) gid,
                 clientMeta := mdelete s.clientMeta c }
      else
        { s with games := setGame s.games game2,
                 clientMeta := mdelete s.clientMeta c }) := by
  unfold onClose
  rw [hm]
  simp only [hgid, hg, hr]
  by_cases hcond :
      ¬(if game.roleSlot r = some c then game.setRoleSlot r none
          else game).rolesP1.isSome = true ∧
        ¬(if game.roleSlot r = some c then game.setRoleSlot r none
          else game).rolesP2.isSome = true
  · rw [if_pos hcond, if_pos hcond]
  · rw [if_neg hcond, if_neg hcond]

/-! ### `onClose` preserves the invariant -/

theorem inv_drop_meta {s : ServerState} {c : ConnId} (hInv : Inv s)
    (hno : ∀ g ∈ s.games, ∀ r, g.roleSlot r ≠ some c) :
    Inv { s with clientMeta := mdelete s.clientMeta c } := by
  obtain ⟨hKeys, hIds, hBound, hSlots, hMetas, hScores⟩ := hInv
  refine ⟨keys_nodup_mdelete _ _ hKeys, hIds, hBound, ?_, ?_, hScores⟩
  · intro g hg r d hslot
    obtain ⟨m, hm, h1, h2⟩ := hSlots g hg r d hslot
    have hdc : d ≠ c := by
      intro he
      exact hno g hg r (he ▸ hslot)
    exact ⟨m, by
      show mlookup (mdelete s.clientMeta c) d = some m
      rw [mlookup_mdelete_ne _ _ _ hdc]
      exact hm, h1, h2⟩
  · intro d m hm
    have hdc : d ≠ c := by
      intro he
      rw [show ({ s with clientMeta := mdelete s.clientMeta c } :
        ServerState).clientMeta = mdelete s.clientMeta c from rfl, he,
        mlookup_mdelete_self _ _ hKeys] at hm
      cases hm
    rw [show ({ s with clientMeta := mdelete s.clientMeta c } :
      ServerState).clientMeta = mdelete s.clientMeta c from rfl,
      mlookup_mdelete_ne _ _ _ hdc] at hm
    exact metaOk_transfer rfl rfl rfl (hMetas d m hm)

theorem inv_onClose {s : ServerState} {c : ConnId} (hInv : Inv s) :
    Inv (onClose s c) := by
  have hKeys := hInv.1
  have hIds := hInv.2.1
  have hBound := hInv.2.2.1
  have hSlots := hInv.2.2.2.1
  have hMetas := hInv.2.2.2.2.1
  have hScores := hInv.2.2.2.2.2
  rcases hm : mlookup s.clientMeta c with _ | meta
  · rw [onClose_of_no_meta hm]
    exact inv_drop_meta hInv (no_slot_of_no_meta hInv hm)
  rcases hgid : meta.gameId with _ | gid
  · rw [onClose_of_no_gid hm hgid]
    refine inv_drop_meta hInv ?_
    rcases hMetas c meta hm with ⟨h1, _⟩ | ⟨r0, gid', g0, _, h2, _⟩
    · exact no_slot_of_unassigned hInv hm h1
    · rw [hgid] at h2
      cases h2
  rcases hMetas c meta hm with ⟨_, h2⟩ | ⟨r0, gid', g0, h1, h2, hg0mem, hg0id, hg0slot⟩
  · rw [hgid] at h2
    cases h2
  rw [hgid] at h2
  injection h2 with h2
  rw [← h2] at hg0id
  have hget : getGame s.games gid = some g0 := by
    rw [← hg0id]
    exact getGame_of_mem_nodup hIds hg0mem
  rw [onClose_main hm hgid hget h1]
  rw [if_pos hg0slot]
  show Inv
    (if ¬(g0.setRoleSlot r0 none).rolesP1.isSome ∧
        ¬(g0.setRoleSlot r0 none).rolesP2.isSome then
      { s with games := gamesDelete (setGame s.games (g0.setRoleSlot r0 none)) gid,
               clientMeta := mdelete s.clientMeta c }
    else
      { s with games := setGame s.games (g0.setRoleSlot r0 none),
               clientMeta := mdelete s.clientMeta c })
  have hG2id : (g0.setRoleSlot r0 none).id = g0.id := Game.id_setRoleSlot g0 r0 none
  have hg0neG2 : g0 ≠ g0.setRoleSlot r0 none := by
    intro he
    have : g0.roleSlot r0 = (g0.setRoleSlot r0 none).roleSlot r0 := by rw [← he]
    rw [Game.roleSlot_setRoleSlot_self, hg0slot] at this
    cases this
  by_cases hdel : ¬(g0.setRoleSlot r0 none).rolesP1.isSome = true ∧
      ¬(g0.setRoleSlot r0 none).rolesP2.isSome = true
  · rw [if_pos hdel]
    have hG2none : ∀ r', (g0.setRoleSlot r0 none).roleSlot r' = none := by
      intro r'
      cases r'
      · exact Option.not_isSome_iff_eq_none.mp hdel.1
      · exact Option.not_isSome_iff_eq_none.mp hdel.2
    have hIds2 : ((setGame s.games (g0.setRoleSlot r0 none)).map Game.id).Nodup := by
      rw [ids_setGame]
      exact hIds
    refine ⟨keys_nodup_mdelete _ _ hKeys,
      (ids_gamesDelete_sublist _ _).nodup hIds2, ?_, ?_, ?_, ?_⟩
    · intro g' hg'
      rcases mem_setGame (mem_gamesDelete hg') with he | hmemS
      · subst he
        rw [hG2id]
        exact hBound g0 hg0mem
      · exact hBound g' hmemS
    · intro g' hg' r' c' hslot'
      have hne : g'.id ≠ gid := id_ne_of_mem_gamesDelete hIds2 hg'
      rcases mem_setGame (mem_gamesDelete hg') with he | hmemS
      · subst he
        rw [hG2none r'] at hslot'
        cases hslot'
      · obtain ⟨m', hm', h1', h2'⟩ := hSlots g' hmemS r' c' hslot'
        have hc' : c' ≠ c := by
          intro he
          subst he
          rw [hm] at hm'
          cases hm'
          rw [hgid] at h2'
          injection h2' with h2'
          exact hne h2'.symm
        exact ⟨m', by
          show mlookup (mdelete s.clientMeta c) c' = some m'
          rw [mlookup_mdelete_ne _ _ _ hc']
          exact hm', h1', h2'⟩
    · intro d m' hm'
      have hdc : d ≠ c := by
        intro he
        subst he
        rw [show mlookup (mdelete s.clientMeta d) d = none from
          mlookup_mdelete_self _ _ hKeys] at hm'
        cases hm'
      rw [show mlookup (mdelete s.clientMeta c) d = mlookup s.clientMeta d from
        mlookup_mdelete_ne _ _ _ hdc] at hm'
      rcases hMetas d m' hm' with hInl | ⟨r', gid', g'', h1', h2', hmem'', hid'', hslot''⟩
      · exact Or.inl hInl
      · by_cases hgid' : gid' = gid
        · have hgg : g'' = g0 :=
            eq_of_mem_nodup_id hIds hmem'' hg0mem (by rw [hid'', hgid', hg0id])
          have hcontr := hG2none r'
          by_cases hr' : r' = r0
          · rw [hgg, hr', hg0slot] at hslot''
            injection hslot'' with hcd
            exact absurd hcd.symm hdc
          · rw [Game.roleSlot_setRoleSlot_ne g0 r0 r' none hr'] at hcontr
            rw [hgg, hcontr] at hslot''
            cases hslot''
        · refine Or.inr ⟨r', gid', g'', h1', h2', ?_, hid'', hslot''⟩
          refine mem_gamesDelete_of_ne (mem_setGame_of_ne hmem'' ?_) ?_
          · rw [hG2id, hid'', hg0id]
            exact hgid'
          · rw [hid'']
            exact hgid'
    · intro g' hg'
      rcases mem_setGame (mem_gamesDelete hg') with he | hmemS
      · subst he
        rw [Game.scoresP1_setRoleSlot, Game.scoresP2_setRoleSlot]
        exact hScores g0 hg0mem
      · exact hScores g' hmemS
  · rw [if_neg hdel]
    have hG2r0 : (g0.setRoleSlot r0 none).roleSlot r0 = none :=
      Game.roleSlot_setRoleSlot_self g0 r0 none
    have hIds2 : ((setGame s.games (g0.setRoleSlot r0 none)).map Game.id).Nodup := by
      rw [ids_setGame]
      exact hIds
    refine ⟨keys_nodup_mdelete _ _ hKeys, hIds2, ?_, ?_, ?_, ?_⟩
    · intro g' hg'
      rcases mem_setGame hg' with he | hmemS
      · subst he
        rw [hG2id]
        exact hBound g0 hg0mem
      · exact hBound g' hmemS
    · intro g' hg' r' c' hslot'
      rcases mem_setGame hg' with he | hmemS
      · subst he
        have hr' : r' ≠ r0 := by
          intro he'
          rw [he', hG2r0] at hslot'
          cases hslot'
        rw [Game.roleSlot_setRoleSlot_ne g0 r0 r' none hr'] at hslot'
        obtain ⟨m', hm', h1', h2'⟩ := hSlots g0 hg0mem r' c' hslot'
        have hc' : c' ≠ c := by
          intro he'
          rw [he', hm] at hm'
          injection hm' with hmm
          rw [← hmm, h1] at h1'
          injection h1' with h1'
          exact hr' h1'.symm
        refine ⟨m', by
          show mlookup (mdelete s.clientMeta c) c' = some m'
          rw [mlookup_mdelete_ne _ _ _ hc']
          exact hm', h1', ?_⟩
        rw [hG2id]
        exact h2'
      · obtain ⟨m', hm', h1', h2'⟩ := hSlots g' hmemS r' c' hslot'
        have hc' : c' ≠ c := by
          intro he'
          rw [he', hm] at hm'
          injection hm' with hmm
          rw [← hmm, hgid] at h2'
          injection h2' with h2'
          have hgg : g' = g0 :=
            eq_of_mem_nodup_id hIds hmemS hg0mem (by rw [← h2', hg0id])
          rw [hgg] at hg'
          exact not_mem_setGame hIds hg0neG2 hG2id.symm hg0mem hg'
        refine ⟨m', by
          show mlookup (mdelete s.clientMeta c) c' = some m'
          rw [mlookup_mdelete_ne _ _ _ hc']
          exact hm', h1', h2'⟩
    · intro d m' hm'
      have hdc : d ≠ c := by
        intro he
        subst he
        rw [show mlookup (mdelete s.clientMeta d) d = none from
          mlookup_mdelete_self _ _ hKeys] at hm'
        cases hm'
      rw [show mlookup (mdelete s.clientMeta c) d = mlookup s.clientMeta d from
        mlookup_mdelete_ne _ _ _ hdc] at hm'
      rcases hMetas d m' hm' with hInl | ⟨r', gid', g'', h1', h2', hmem'', hid'', hslot''⟩
      · exact Or.inl hInl
      · by_cases hgid' : gid' = gid
        · have hgg : g'' = g0 :=
            eq_of_mem_nodup_id hIds hmem'' hg0mem (by rw [hid'', hgid', hg0id])
          have hr' : r' ≠ r0 := by
            intro he
            rw [hgg, he, hg0slot] at hslot''
            injection hslot'' with hcd
            exact hdc hcd.symm
          refine Or.inr ⟨r', gid', g0.setRoleSlot r0 none, h1', h2', ?_, ?_, ?_⟩
          · exact mem_setGame_self (by rw [hG2id, hg0id, hget]; rfl)
          · rw [hG2id, hg0id, hgid']
          · rw [Game.roleSlot_setRoleSlot_ne g0 r0 r' none hr', ← hgg]
            exact hslot''
        · refine Or.inr ⟨r', gid', g'', h1', h2', ?_, hid'', hslot''⟩
          refine mem_setGame_of_ne hmem'' ?_
          rw [hG2id, hid'', hg0id]
          exact hgid'
    · intro g' hg'
      rcases mem_setGame hg' with he | hmemS
      · subst he
        rw [Game.scoresP1_setRoleSlot, Game.scoresP2_setRoleSlot]
        exact hScores g0 hg0mem
      · exact hScores g' hmemS

/-! ### `assignClientToGame` preserves the invariant -/

theorem inv_claimRole {env : Env} {s : ServerState} {ws : ConnId} {role : Role}
    {targetGame : Game} {m0 : Meta} (hInv : Inv s)
    (hm : mlookup s.clientMeta ws = some m0) (hrole : m0.role = none)
    (hmem : targetGame ∈ s.games) (hslot : targetGame.roleSlot role = none) :
    Inv (claimRole env s ws role targetGame).1 := by
  obtain ⟨hKeys, hIds, hBound, hSlots, hMetas, hScores⟩ := hInv
  have hno : ∀ g ∈ s.games, ∀ r, g.roleSlot r ≠ some ws :=
    no_slot_of_unassigned ⟨hKeys, hIds, hBound, hSlots, hMetas, hScores⟩ hm hrole
  have hG2id : (targetGame.setRoleSlot role (some ws)).id = targetGame.id :=
    Game.id_setRoleSlot _ _ _
  have hgetT : getGame s.games targetGame.id = some targetGame :=
    getGame_of_mem_nodup hIds hmem
  show Inv
    { s with games := setGame s.games (targetGame.setRoleSlot role (some ws)),
             clientMeta := mupdate s.clientMeta ws (fun m => { m with role := some role, gameId := some (targetGame.setRoleSlot role (some ws)).id }) }
  have hlookupWs : mlookup (mupdate s.clientMeta ws (fun m => { m with role := some role, gameId := some (targetGame.setRoleSlot role (some ws)).id })) ws =
      some { m0 with role := some role, gameId := some (targetGame.setRoleSlot role (some ws)).id } := by
    rw [mlookup_mupdate_self, hm]
    rfl
  refine ⟨?_, ?_, ?_, ?_, ?_, ?_⟩
  · rw [show (List.map Prod.fst (mupdate s.clientMeta ws _)) =
      s.clientMeta.map Prod.fst from keys_mupdate _ _ _]
    exact hKeys
  · rw [show (List.map Game.id (setGame s.games _)) = s.games.map Game.id from
      ids_setGame _ _]
    exact hIds
  · intro g' hg'
    rcases mem_setGame hg' with he | hmemS
    · subst he
      rw [hG2id]
      exact hBound targetGame hmem
    · exact hBound g' hmemS
  · intro g' hg' r' c' hslot'
    rcases mem_setGame hg' with he | hmemS
    · subst he
      by_cases hr' : r' = role
      · rw [hr', Game.roleSlot_setRoleSlot_self] at hslot'
        injection hslot' with hc'
        refine ⟨{ m0 with role := some role, gameId := some (targetGame.setRoleSlot role (some ws)).id }, ?_, ?_, rfl⟩
        · rw [← hc']
          exact hlookupWs
        · rw [hr']
      · rw [Game.roleSlot_setRoleSlot_ne _ _ _ _ hr'] at hslot'
        obtain ⟨m', hm', h1', h2'⟩ := hSlots targetGame hmem r' c' hslot'
        have hc' : c' ≠ ws := by
          intro he'
          exact hno targetGame hmem r' (he' ▸ hslot')
        refine ⟨m', ?_, h1', ?_⟩
        · rw [mlookup_mupdate_ne _ _ _ _ hc']
          exact hm'
        · rw [hG2id]
          exact h2'
    · obtain ⟨m', hm', h1', h2'⟩ := hSlots g' hmemS r' c' hslot'
      have hc' : c' ≠ ws := by
        intro he'
        exact hno g' hmemS r' (he' ▸ hslot')
      refine ⟨m', ?_, h1', h2'⟩
      rw [mlookup_mupdate_ne _ _ _ _ hc']
      exact hm'
  · intro d m' hm'
    by_cases hd : d = ws
    · rw [hd, hlookupWs] at hm'
      injection hm' with hm'
      refine Or.inr ⟨role, (targetGame.setRoleSlot role (some ws)).id,
        targetGame.setRoleSlot role (some ws), ?_, ?_, ?_, rfl, ?_⟩
      · rw [← hm']
      · rw [← hm']
      · exact mem_setGame_self (by rw [hG2id, hgetT]; rfl)
      · rw [Game.roleSlot_setRoleSlot_self, hd]
    · rw [mlookup_mupdate_ne _ _ _ _ hd] at hm'
      rcases hMetas d m' hm' with hInl | ⟨r', gid', g'', h1', h2', hmem'', hid'', hslot''⟩
      · exact Or.inl hInl
      · by_cases hgid' : gid' = targetGame.id
        · have hgg : g'' = targetGame :=
            eq_of_mem_nodup_id hIds hmem'' hmem (by rw [hid'', hgid'])
          have hr' : r' ≠ role := by
            intro he
            rw [hgg, he, hslot] at hslot''
            cases hslot''
          refine Or.inr ⟨r', gid', targetGame.setRoleSlot role (some ws),
            h1', h2', ?_, ?_, ?_⟩
          · exact mem_setGame_self (by rw [hG2id, hgetT]; rfl)
          · rw [hG2id, hgid']
          · rw [Game.roleSlot_setRoleSlot_ne _ _ _ _ hr', ← hgg]
            exact hslot''
        · refine Or.inr ⟨r', gid', g'', h1', h2', ?_, hid'', hslot''⟩
          refine mem_setGame_of_ne hmem'' ?_
          rw [hG2id, hid'']
          exact hgid'
  · intro g' hg'
    rcases mem_setGame hg' with he | hmemS
    · subst he
      rw [Game.scoresP1_setRoleSlot, Game.scoresP2_setRoleSlot]
      exact hScores targetGame hmem
    · exact hScores g' hmemS

theorem inv_append_fresh {s : ServerState} (hInv : Inv s) :
    Inv { s with
      games := s.games ++
        [{ id := s.nextGameId, rolesP1 := none, rolesP2 := none,
           scoresP1 := 0, scoresP2 := 0 }],
      nextGameId := s.nextGameId + 1 } := by
  obtain ⟨hKeys, hIds, hBound, hSlots, hMetas, hScores⟩ := hInv
  refine ⟨hKeys, ?_, ?_, ?_, ?_, ?_⟩
  · rw [List.map_append]
    refine List.Nodup.append hIds (by simp) ?_
    intro x hx hx'
    simp only [List.map_cons, List.map_nil, List.mem_singleton] at hx'
    subst hx'
    obtain ⟨g, hg, hgid⟩ := List.mem_map.mp hx
    exact absurd (hgid ▸ hBound g hg) (lt_irrefl _)
  · intro g' hg'
    rcases List.mem_append.mp hg' with h | h
    · exact Nat.lt_succ_of_lt (hBound g' h)
    · simp only [List.mem_singleton] at h
      subst h
      exact Nat.lt_succ_self _
  · intro g' hg' r' c' hslot'
    rcases List.mem_append.mp hg' with h | h
    · exact hSlots g' h r' c' hslot'
    · simp only [List.mem_singleton] at h
      subst h
      cases r' <;> cases hslot'
  · intro d m' hm'
    rcases hMetas d m' hm' with hInl | ⟨r', gid', g'', h1', h2', hmem'', hid'', hslot''⟩
    · exact Or.inl hInl
    · exact Or.inr ⟨r', gid', g'', h1', h2',
        List.mem_append_left _ hmem'', hid'', hslot''⟩
  · intro g' hg'
    rcases List.mem_append.mp hg' with h | h
    · exact hScores g' h
    · simp only [List.mem_singleton] at h
      subst h
      exact ⟨le_refl 0, le_refl 0⟩

theorem inv_assignFresh {env : Env} {s : ServerState} {ws : ConnId}
    {role : Role} {m0 : Meta} (hInv : Inv s)
    (hm : mlookup s.clientMeta ws = some m0) (hrole : m0.role = none) :
    Inv (assignFresh env s ws role).1 := by
  unfold assignFresh
  rcases hfind : findOpenGame role s.games with _ | targetGame
  · show Inv (claimRole env
      { s with games := s.games ++ [_], nextGameId := s.nextGameId + 1 }
      ws role _).1
    refine inv_claimRole (inv_append_fresh hInv) ?_ hrole ?_ ?_
    · exact hm
    · exact List.mem_append_right _ (List.mem_singleton.mpr rfl)
    · cases role <;> rfl
  · obtain ⟨hmem, hslot⟩ := findOpenGame_mem hfind
    exact inv_claimRole hInv hm hrole hmem hslot

theorem inv_assignClientToGame {env : Env} {s : ServerState} {ws : ConnId}
    {desiredRole : String} (hInv : Inv s) :
    Inv (assignClientToGame env s ws desiredRole).1 := by
  unfold assignClientToGame
  rcases hm : mlookup s.clientMeta ws with _ | meta
  · have hInv1 : Inv (onConnect s ws) := inv_onConnect hInv hm
    have hm1 : mlookup (mset s.clientMeta ws ⟨none, true, none⟩) ws =
        some ⟨none, true, none⟩ := mlookup_mset_self _ _ _
    exact inv_assignFresh hInv1 hm1 rfl
  · show Inv ((if meta.gameId.isSome = true ∧ meta.role.isSome = true then
        (s, sendScoreUpdate env s ws)
      else assignFresh env s ws
        (if desiredRole = "p2" then Role.p2 else Role.p1)).1)
    by_cases hassigned : meta.gameId.isSome = true ∧ meta.role.isSome = true
    · rw [if_pos hassigned]
      exact hInv
    · rw [if_neg hassigned]
      have hrole : meta.role = none := by
        rcases hInv.2.2.2.2.1 ws meta hm with ⟨h1, _⟩ | ⟨r', gid', g'', h1', h2', _⟩
        · exact h1
        · exact absurd ⟨by simp [h2'], by simp [h1']⟩ hassigned
      exact inv_assignFresh hInv hm hrole

/-! ### Score mutation preserves the invariant -/

theorem inv_set_scores {s : ServerState} {gid : Nat} {game game2 : Game}
    (hInv : Inv s) (hget : getGame s.games gid = some game)
    (hid : game2.id = game.id)
    (hslots : ∀ r, game2.roleSlot r = game.roleSlot r)
    (hsc : 0 ≤ game2.scoresP1 ∧ 0 ≤ game2.scoresP2) :
    Inv { s with games := setGame s.games game2 } := by
  obtain ⟨hKeys, hIds, hBound, hSlots, hMetas, hScores⟩ := hInv
  obtain ⟨hgmem, hgid⟩ := getGame_mem hget
  refine ⟨hKeys, ?_, ?_, ?_, ?_, ?_⟩
  · rw [show (List.map Game.id (setGame s.games game2)) = s.games.map Game.id
      from ids_setGame _ _]
    exact hIds
  · intro g' hg'
    rcases mem_setGame hg' with he | hmemS
    · subst he
      rw [hid]
      exact hBound game hgmem
    · exact hBound g' hmemS
  · intro g' hg' r' c' hslot'
    rcases mem_setGame hg' with he | hmemS
    · subst he
      rw [hslots r'] at hslot'
      obtain ⟨m', hm', h1', h2'⟩ := hSlots game hgmem r' c' hslot'
      refine ⟨m', hm', h1', ?_⟩
      rw [hid]
      exact h2'
    · exact hSlots g' hmemS r' c' hslot'
  · intro d m' hm'
    rcases hMetas d m' hm' with hInl | ⟨r', gid', g'', h1', h2', hmem'', hid'', hslot''⟩
    · exact Or.inl hInl
    · by_cases hgid' : gid' = game.id
      · have hgg : g'' = game :=
          eq_of_mem_nodup_id hIds hmem'' hgmem (by rw [hid'', hgid'])
        refine Or.inr ⟨r', gid', game2, h1', h2', ?_, ?_, ?_⟩
        · refine mem_setGame_self ?_
          rw [hid, hgid, hget]
          rfl
        · rw [hid, hgid']
        · rw [hslots r', ← hgg]
          exact hslot''
      · refine Or.inr ⟨r', gid', g'', h1', h2', ?_, hid'', hslot''⟩
        refine mem_setGame_of_ne hmem'' ?_
        rw [hid, hid'']
        exact hgid'
  · intro g' hg'
    rcases mem_setGame hg' with he | hmemS
    · subst he
      exact hsc
    · exact hScores g' hmemS

theorem inv_handleHit {env : Env} {s : ServerState} {ws : ConnId} {data : JVal}
    (hInv : Inv s) : Inv (handleHit env s ws data).1 := by
  unfold handleHit
  rcases hm : mlookup s.clientMeta ws with _ | ⟨mrole, malive, mgid⟩
  · exact hInv
  rcases mrole with _ | fromRole
  · exact hInv
  rcases mgid with _ | gid
  · exact hInv
  show Inv ((match getGame s.games gid with
    | none => (s, [])
    | some game =>
        let kind := hitKind data
        if kind = "enemy" then
          let game2 :=
            if fromRole = Role.p1 then
              { game with scoresP1 := game.scoresP1 + 1 }
            else
              { game with scoresP2 := game.scoresP2 + 1 }
          let s2 := { s with games := setGame s.games game2 }
          (s2, broadcastScoreUpdateForGame env s2 game2)
        else (s, [])).1)
  rcases hget : getGame s.games gid with _ | game
  · exact hInv
  show Inv ((if hitKind data = "enemy" then _ else (s, [])).1)
  by_cases hk : hitKind data = "enemy"
  · rw [if_pos hk]
    cases fromRole
    · show Inv { s with
        games := setGame s.games { game with scoresP1 := game.scoresP1 + 1 } }
      refine inv_set_scores hInv hget rfl (fun r => by cases r <;> rfl) ?_
      have hsc := hInv.2.2.2.2.2 game (getGame_mem hget).1
      constructor
      · show (0 : Int) ≤ game.scoresP1 + 1
        omega
      · show (0 : Int) ≤ game.scoresP2
        exact hsc.2
    · show Inv { s with
        games := setGame s.games { game with scoresP2 := game.scoresP2 + 1 } }
      refine inv_set_scores hInv hget rfl (fun r => by cases r <;> rfl) ?_
      have hsc := hInv.2.2.2.2.2 game (getGame_mem hget).1
      constructor
      · show (0 : Int) ≤ game.scoresP1
        exact hsc.1
      · show (0 : Int) ≤ game.scoresP2 + 1
        omega
  · rw [if_neg hk]
    exact hInv

theorem inv_handleResetMatch {env : Env} {s : ServerState} {ws : ConnId}
    (hInv : Inv s) : Inv (handleResetMatch env s ws).1 := by
  unfold handleResetMatch
  rcases hm : mlookup s.clientMeta ws with _ | ⟨mrole, malive, mgid⟩
  · exact hInv
  rcases mgid with _ | gid
  · exact hInv
  show Inv ((match getGame s.games gid with
    | none => (s, [])
    | some game => resetMatchForGame env s game).1)
  rcases hget : getGame s.games gid with _ | game
  · exact hInv
  show Inv { s with
    games := setGame s.games { game with scoresP1 := 0, scoresP2 := 0 } }
  exact inv_set_scores hInv hget rfl (fun r => by cases r <;> rfl)
    ⟨le_refl 0, le_refl 0⟩

theorem inv_onMessage {env : Env} {s : ServerState} {ws : ConnId}
    {raw : Option JVal} (hInv : Inv s) : Inv (onMessage env s ws raw).1 := by
  unfold onMessage
  rcases raw with _ | data
  · exact hInv
  show Inv ((if data.truthy = true then
      match (data.getField "type").asStr with
      | none => (s, [])
      | some ty =>
        if ty = "hello" then handleHello env s ws data
        else if ty = "state" then (s, handleState env s ws data)
        else if ty = "shot" then (s, handleShot env s ws data)
        else if ty = "hit" then handleHit env s ws data
        else if ty = "reset-match" then handleResetMatch env s ws
        else (s, [])
    else (s, [])).1)
  by_cases htr : data.truthy = true
  · rw [if_pos htr]
    rcases hty : (data.getField "type").asStr with _ | ty
    · exact hInv
    show Inv ((if ty = "hello" then handleHello env s ws data
      else if ty = "state" then (s, handleState env s ws data)
      else if ty = "shot" then (s, handleShot env s ws data)
      else if ty = "hit" then handleHit env s ws data
      else if ty = "reset-match" then handleResetMatch env s ws
      else (s, [])).1)
    by_cases h1 : ty = "hello"
    · rw [if_pos h1]
      exact inv_assignClientToGame hInv
    rw [if_neg h1]
    by_cases h2 : ty = "state"
    · rw [if_pos h2]
      exact hInv
    rw [if_neg h2]
    by_cases h3 : ty = "shot"
    · rw [if_pos h3]
      exact hInv
    rw [if_neg h3]
    by_cases h4 : ty = "hit"
    · rw [if_pos h4]
      exact inv_handleHit hInv
    rw [if_neg h4]
    by_cases h5 : ty = "reset-match"
    · rw [if_pos h5]
      exact inv_handleResetMatch hInv
    rw [if_neg h5]
    exact hInv
  · rw [if_neg htr]
    exact hInv

/-! ### Heartbeat preserves the invariant -/

/-- Two meta maps that differ only in some `isAlive` flags being forced
to `false`. -/
def flagsOnly (cm cm' : List (ConnId × Meta)) : Prop :=
  cm'.map Prod.fst = cm.map Prod.fst ∧
  ∀ c, mlookup cm' c = mlookup cm c ∨
    ∃ m, mlookup cm c = some m ∧
      mlookup cm' c = some { m with isAlive := false }

theorem flagsOnly_refl (cm : List (ConnId × Meta)) : flagsOnly cm cm :=
  ⟨rfl, fun _ => Or.inl rfl⟩

theorem flagsOnly_mupdate (cm : List (ConnId × Meta)) (ws : ConnId) :
    flagsOnly cm (mupdate cm ws (fun m => { m with isAlive := false })) := by
  refine ⟨keys_mupdate _ _ _, ?_⟩
  intro c
  by_cases hc : c = ws
  · subst hc
    rcases hm : mlookup cm c with _ | m
    · rw [mlookup_mupdate_self, hm]
      exact Or.inl rfl
    · exact Or.inr ⟨m, rfl, by rw [mlookup_mupdate_self, hm]; rfl⟩
  · rw [mlookup_mupdate_ne _ _ _ _ hc]
    exact Or.inl rfl

theorem flagsOnly_trans {cm1 cm2 cm3 : List (ConnId × Meta)}
    (h12 : flagsOnly cm1 cm2) (h23 : flagsOnly cm2 cm3) :
    flagsOnly cm1 cm3 := by
  refine ⟨h23.1.trans h12.1, ?_⟩
  intro c
  rcases h23.2 c with h3 | ⟨m2, hm2, hm3⟩
  · rcases h12.2 c with h2 | ⟨m1, hm1, hm2⟩
    · exact Or.inl (h3.trans h2)
    · exact Or.inr ⟨m1, hm1, h3.trans hm2⟩
  · rcases h12.2 c with h2 | ⟨m1, hm1, hm2'⟩
    · rw [h2] at hm2
      exact Or.inr ⟨m2, hm2, hm3⟩
    · rw [hm2'] at hm2
      injection hm2 with hm2
      refine Or.inr ⟨m1, hm1, ?_⟩
      rw [hm3, ← hm2]

theorem heartbeatLoop_flagsOnly (conns : List ConnId) :
    ∀ cm, flagsOnly cm (heartbeatLoop conns cm).1 := by
  induction conns with
  | nil => exact fun cm => flagsOnly_refl cm
  | cons ws rest ih =>
      intro cm
      show flagsOnly cm (heartbeatLoop (ws :: rest) cm).1
      rw [heartbeatLoop]
      rcases hm : mlookup cm ws with _ | meta
      · exact ih cm
      show flagsOnly cm
        ((if meta.isAlive = true then
            match heartbeatLoop rest
              (mupdate cm ws (fun m => { m with isAlive := false })) with
            | (cm3, term, pinged) => (cm3, term, ws :: pinged)
          else
            match heartbeatLoop rest cm with
            | (cm3, term, pinged) => (cm3, ws :: term, pinged)).1)
      by_cases ha : meta.isAlive = true
      · rw [if_pos ha]
        have h1 := flagsOnly_mupdate cm ws
        have h2 := ih (mupdate cm ws (fun m => { m with isAlive := false }))
        rcases hL : heartbeatLoop rest
          (mupdate cm ws (fun m => { m with isAlive := false })) with ⟨cm3, term, pinged⟩
        rw [hL] at h2
        exact flagsOnly_trans h1 h2
      · rw [if_neg ha]
        have h2 := ih cm
        rcases hL : heartbeatLoop rest cm with ⟨cm3, term, pinged⟩
        rw [hL] at h2
        exact h2

theorem inv_flagsOnly {s : ServerState} {cm' : List (ConnId × Meta)}
    (hInv : Inv s) (hf : flagsOnly s.clientMeta cm') :
    Inv { s with clientMeta := cm' } := by
  obtain ⟨hKeys, hIds, hBound, hSlots, hMetas, hScores⟩ := hInv
  refine ⟨?_, hIds, hBound, ?_, ?_, hScores⟩
  · rw [show cm'.map Prod.fst = s.clientMeta.map Prod.fst from hf.1]
    exact hKeys
  · intro g' hg' r' c' hslot'
    obtain ⟨m', hm', h1', h2'⟩ := hSlots g' hg' r' c' hslot'
    rcases hf.2 c' with h | ⟨m2, hm2, hm3⟩
    · exact ⟨m', by rw [show mlookup cm' c' = _ from h]; exact hm', h1', h2'⟩
    · rw [hm'] at hm2
      injection hm2 with hm2
      refine ⟨{ m2 with isAlive := false }, hm3, ?_, ?_⟩
      · show m2.role = some r'
        rw [← hm2]
        exact h1'
      · show m2.gameId = some g'.id
        rw [← hm2]
        exact h2'
  · intro d m' hm'
    rcases hf.2 d with h | ⟨m2, hm2, hm3⟩
    · rw [show mlookup cm' d = _ from h] at hm'
      exact metaOk_transfer rfl rfl rfl (hMetas d m' hm')
    · rw [hm3] at hm'
      injection hm' with hm'
      rw [← hm']
      exact metaOk_transfer rfl rfl rfl (hMetas d m2 hm2)

theorem inv_foldl_onClose (l : List ConnId) :
    ∀ s : ServerState, Inv s → Inv (l.foldl onClose s) := by
  induction l with
  | nil => exact fun s h => h
  | cons c rest ih =>
      intro s h
      exact ih (onClose s c) (inv_onClose h)

theorem inv_heartbeatTick {s : ServerState} (hInv : Inv s) :
    Inv (heartbeatTick s).1 := by
  have h := heartbeatLoop_flagsOnly (s.clientMeta.map Prod.fst) s.clientMeta
  unfold heartbeatTick
  show Inv ((match heartbeatLoop (s.clientMeta.map Prod.fst) s.clientMeta with
    | (cm2, term, pinged) =>
      (term.foldl onClose { s with clientMeta := cm2 }, term, pinged)).1)
  rcases hL : heartbeatLoop (s.clientMeta.map Prod.fst) s.clientMeta
    with ⟨cm2, term, pinged⟩
  rw [hL] at h
  exact inv_foldl_onClose term _ (inv_flagsOnly hInv h)

/-! ### Every reachable state satisfies the invariant -/

theorem inv_step {env : Env} {s : ServerState} {e : Event}
    (hInv : Inv s) (hwf : WfEvent s e) : Inv (step env s e).1 := by
  cases e with
  | connect c => exact inv_onConnect hInv hwf
  | message c raw => exact inv_onMessage hInv
  | close c => exact inv_onClose hInv
  | pong c => exact inv_onPong hInv
  | tick => exact inv_heartbeatTick hInv

theorem inv_of_reachable {s : ServerState} (h : Reachable s) : Inv s := by
  induction h with
  | init => exact inv_initState
  | step env s e _ hwf ih => exact inv_step ih hwf

/-! ### Small role facts -/

theorem Role.other_ne (r : Role) : r.other ≠ r := by
  cases r <;> simp [Role.other]

theorem Role.eq_or_eq_other (r r' : Role) : r' = r ∨ r' = r.other := by
  cases r <;> cases r' <;> simp [Role.other]

theorem Role.other_other (r : Role) : r.other.other = r := by
  cases r <;> rfl

/-- The `close` handler always ends by dropping the record, and no branch
touches any other record. -/
theorem onClose_clientMeta (s : ServerState) (c : ConnId) :
    (onClose s c).clientMeta = mdelete s.clientMeta c := by
  rcases hm : mlookup s.clientMeta c with _ | meta
  · rw [onClose_of_no_meta hm]
  rcases hgid : meta.gameId with _ | gid
  · rw [onClose_of_no_gid hm hgid]
  rcases hget : getGame s.games gid with _ | game
  · rw [onClose_of_no_game hm hgid hget]
  rcases hr : meta.role with _ | r
  · rw [onClose_of_no_role hm hgid hget hr]
  rw [onClose_main hm hgid hget hr]
  show ((if ¬(if game.roleSlot r = some c then game.setRoleSlot r none
          else game).rolesP1.isSome = true ∧
        ¬(if game.roleSlot r = some c then game.setRoleSlot r none
          else game).rolesP2.isSome = true then
      ({ s with
        games := gamesDelete (setGame s.games
          (if game.roleSlot r = some c then game.setRoleSlot r none else game)) gid,
        clientMeta := mdelete s.clientMeta c } : ServerState)
    else
      ({ s with
        games := setGame s.games
          (if game.roleSlot r = some c then game.setRoleSlot r none else game),
        clientMeta := mdelete s.clientMeta c } : ServerState)) :
      ServerState).clientMeta = mdelete s.clientMeta c
  split <;> split <;> rfl

/-! ### A concrete reachable state for witnesses -/

/-- A transport environment in which every socket is open. -/
def envW : Env := ⟨fun _ => true, 0⟩

/-- A parsed `hello` message with the given role string. -/
def helloMsg (role : String) : Option JVal :=
  some (.obj [("type", .str "hello"), ("role", .str role)])

/-- The state after: connect 10, hello p1, connect 20, hello p2. -/
def sW : ServerState :=
  (step envW ((step envW ((step envW ((step envW initState
    (.connect 10)).1) (.message 10 (helloMsg "p1"))).1) (.connect 20)).1)
    (.message 20 (helloMsg "p2"))).1

/-- The single game of `sW`. -/
def gW : Game := ⟨1, some 10, some 20, 0, 0⟩

theorem sW_reachable : Reachable sW :=
  Reachable.step envW _ (.message 20 (helloMsg "p2"))
    (Reachable.step envW _ (.connect 20)
      (Reachable.step envW _ (.message 10 (helloMsg "p1"))
        (Reachable.step envW _ (.connect 10) Reachable.init rfl)
        trivial)
      rfl)
    trivial

theorem sW_eval : sW = ⟨[(10, ⟨some .p1, true, some 1⟩), (20, ⟨some .p2, true, some 1⟩)],
    [gW], 2⟩ := by decide

/-! ### C2 -/

/-- C2: in every reachable state each role slot of each session holds at
most one connection, and no connection occupies two distinct slot
positions (across sessions or within one session) simultaneously. -/
theorem spec_C2 {s : ServerState} (h : Reachable s) :
    (∀ g ∈ s.games, ∀ r, ∀ c c' : ConnId,
      g.roleSlot r = some c → g.roleSlot r = some c' → c = c') ∧
    (∀ g ∈ s.games, ∀ g' ∈ s.games, ∀ r r' (c : ConnId),
      g.roleSlot r = some c → g'.roleSlot r' = some c → g = g' ∧ r = r') := by
  have hInv := inv_of_reachable h
  constructor
  · intro g _ r c c' h1 h2
    rw [h1] at h2
    injection h2 with h2
  · intro g hg g' hg' r r' c h1 h2
    obtain ⟨m, hm, hr1, hgid1⟩ := hInv.2.2.2.1 g hg r c h1
    obtain ⟨m', hm', hr2, hgid2⟩ := hInv.2.2.2.1 g' hg' r' c h2
    rw [hm] at hm'
    injection hm' with hmm
    rw [← hmm] at hr2 hgid2
    rw [hr1] at hr2
    injection hr2 with hrr
    rw [hgid1] at hgid2
    injection hgid2 with hgg
    exact ⟨eq_of_mem_nodup_id hInv.2.1 hg hg' hgg, hrr⟩

theorem spec_C2_witness :
    gW ∈ sW.games ∧ gW.roleSlot .p1 = some 10 ∧ gW.roleSlot .p2 = some 20 ∧
      (gW = gW ∧ Role.p1 = Role.p1) :=
  ⟨by decide, by decide, by decide,
    (spec_C2 sW_reachable).2 gW (by decide) gW (by decide) .p1 .p1 10
      (by decide) (by decide)⟩

/-! ### C10 -/

/-- C10: registry/session-store consistency: a record holding both a role
and a session id points at an existing session whose slot of that role
holds exactly this connection; and disconnect cleanup never clears a slot
still occupied by a different connection. -/
theorem spec_C10 {s : ServerState} (h : Reachable s) :
    (∀ c m r gid, mlookup s.clientMeta c = some m → m.role = some r →
      m.gameId = some gid →
      ∃ g, g ∈ s.games ∧ g.id = gid ∧ g.roleSlot r = some c) ∧
    (∀ c, ∀ g ∈ s.games, ∀ r (d : ConnId), g.roleSlot r = some d → d ≠ c →
      ∃ g', g' ∈ (onClose s c).games ∧ g'.id = g.id ∧ g'.roleSlot r = some d) := by
  have hInv := inv_of_reachable h
  have hIds := hInv.2.1
  constructor
  · intro c m r gid hm hr hgid
    rcases hInv.2.2.2.2.1 c m hm with ⟨h1, _⟩ | ⟨r', gid', g'', h1, h2, hmem, hid, hslot⟩
    · rw [hr] at h1
      cases h1
    · rw [hr] at h1
      injection h1 with h1
      rw [hgid] at h2
      injection h2 with h2
      exact ⟨g'', hmem, by rw [hid, ← h2], by rw [h1]; exact hslot⟩
  · intro c g hg r d hslot hdc
    rcases hm : mlookup s.clientMeta c with _ | meta
    · rw [onClose_of_no_meta hm]
      exact ⟨g, hg, rfl, hslot⟩
    rcases hgid : meta.gameId with _ | gid0
    · rw [onClose_of_no_gid hm hgid]
      exact ⟨g, hg, rfl, hslot⟩
    rcases hInv.2.2.2.2.1 c meta hm with ⟨_, h2⟩ | ⟨r0, gid0', g0, h1, h2, hg0mem, hg0id, hg0slot⟩
    · rw [hgid] at h2
      cases h2
    rw [hgid] at h2
    injection h2 with h2
    rw [← h2] at hg0id
    have hget : getGame s.games gid0 = some g0 := by
      rw [← hg0id]
      exact getGame_of_mem_nodup hIds hg0mem
    rw [onClose_main hm hgid hget h1]
    rw [if_pos hg0slot]
    show ∃ g', g' ∈
      (if ¬(g0.setRoleSlot r0 none).rolesP1.isSome ∧
          ¬(g0.setRoleSlot r0 none).rolesP2.isSome then
        ({ s with games := gamesDelete (setGame s.games (g0.setRoleSlot r0 none)) gid0,
                  clientMeta := mdelete s.clientMeta c } : ServerState)
      else
        { s with games := setGame s.games (g0.setRoleSlot r0 none),
                 clientMeta := mdelete s.clientMeta c }).games ∧
      g'.id = g.id ∧ g'.roleSlot r = some d
    have hG2id : (g0.setRoleSlot r0 none).id = g0.id := Game.id_setRoleSlot g0 r0 none
    by_cases hdel : ¬(g0.setRoleSlot r0 none).rolesP1.isSome = true ∧
        ¬(g0.setRoleSlot r0 none).rolesP2.isSome = true
    · rw [if_pos hdel]
      have hG2none : ∀ r', (g0.setRoleSlot r0 none).roleSlot r' = none := by
        intro r'
        cases r'
        · exact Option.not_isSome_iff_eq_none.mp hdel.1
        · exact Option.not_isSome_iff_eq_none.mp hdel.2
      have hne : g.id ≠ gid0 := by
        intro he
        have hgg : g = g0 := eq_of_mem_nodup_id hIds hg hg0mem (by rw [he, hg0id])
        by_cases hr' : r = r0
        · rw [hgg, hr', hg0slot] at hslot
          injection hslot with hslot
          exact hdc hslot.symm
        · have hcontr := hG2none r
          rw [Game.roleSlot_setRoleSlot_ne g0 r0 r none hr'] at hcontr
          rw [hgg, hcontr] at hslot
          cases hslot
      refine ⟨g, ?_, rfl, hslot⟩
      refine mem_gamesDelete_of_ne (mem_setGame_of_ne hg ?_) hne
      rw [hG2id, hg0id]
      exact hne
    · rw [if_neg hdel]
      by_cases he : g.id = gid0
      · have hgg : g = g0 := eq_of_mem_nodup_id hIds hg hg0mem (by rw [he, hg0id])
        have hr' : r ≠ r0 := by
          intro hrr
          rw [hgg, hrr, hg0slot] at hslot
          injection hslot with hslot
          exact hdc hslot.symm
        refine ⟨g0.setRoleSlot r0 none, ?_, ?_, ?_⟩
        · exact mem_setGame_self (by rw [hG2id, hg0id, hget]; rfl)
        · rw [hG2id, hgg]
        · rw [Game.roleSlot_setRoleSlot_ne g0 r0 r none hr', ← hgg]
          exact hslot
      · refine ⟨g, ?_, rfl, hslot⟩
        refine mem_setGame_of_ne hg ?_
        rw [hG2id, hg0id]
        exact he

theorem spec_C10_witness :
    mlookup sW.clientMeta 10 = some ⟨some .p1, true, some 1⟩ ∧
    (∃ g, g ∈ sW.games ∧ g.id = 1 ∧ g.roleSlot .p1 = some 10) ∧
    gW ∈ sW.games ∧ gW.roleSlot .p2 = some 20 ∧
    (∃ g', g' ∈ (onClose sW 10).games ∧ g'.id = gW.id ∧ g'.roleSlot .p2 = some 20) :=
  ⟨by decide,
   (spec_C10 sW_reachable).1 10 ⟨some .p1, true, some 1⟩ .p1 1 (by decide) rfl rfl,
   by decide, by decide,
   (spec_C10 sW_reachable).2 10 gW (by decide) .p2 20 (by decide) (by decide)⟩

/-! ### C4 -/

theorem getGame_gamesDelete_self {l : List Game} {gid : Nat}
    (hn : (l.map Game.id).Nodup) : getGame (gamesDelete l gid) gid = none := by
  rcases hq : getGame (gamesDelete l gid) gid with _ | g'
  · rfl
  · exact absurd (getGame_mem hq).2 (id_ne_of_mem_gamesDelete hn (getGame_mem hq).1)

/-- C4: on disconnect of a connection holding a role, the slot is
cleared; the session is deleted iff both slots are then empty (a session
with one remaining occupant is retained, scores intact); and the
connection record is removed unconditionally. -/
theorem spec_C4 {s : ServerState} (h : Reachable s) :
    (∀ c, mlookup (onClose s c).clientMeta c = none) ∧
    (∀ c m r gid g, mlookup s.clientMeta c = some m → m.role = some r →
      m.gameId = some gid → getGame s.games gid = some g →
      (g.roleSlot r.other = none → getGame (onClose s c).games gid = none) ∧
      (∀ d, g.roleSlot r.other = some d →
        ∃ g', getGame (onClose s c).games gid = some g' ∧
          g'.roleSlot r = none ∧ g'.roleSlot r.other = some d ∧
          g'.scoresP1 = g.scoresP1 ∧ g'.scoresP2 = g.scoresP2)) := by
  have hInv := inv_of_reachable h
  have hIds := hInv.2.1
  constructor
  · intro c
    rw [onClose_clientMeta]
    exact mlookup_mdelete_self _ _ hInv.1
  · intro c m r gid g hm hr hgid hget
    rcases hInv.2.2.2.2.1 c m hm with ⟨h1, _⟩ | ⟨r0, gid0', g0, h1, h2, hg0mem, hg0id, hg0slot⟩
    · rw [hr] at h1
      cases h1
    rw [hr] at h1
    injection h1 with h1
    rw [hgid] at h2
    injection h2 with h2
    have hg0idgid : g0.id = gid := by rw [hg0id, ← h2]
    have hget0 : getGame s.games gid = some g0 := by
      rw [← hg0idgid]
      exact getGame_of_mem_nodup hIds hg0mem
    rw [hget0] at hget
    injection hget with hgg
    have hslotc : g.roleSlot r = some c := by
      rw [← hgg, h1]
      exact hg0slot
    have hgetg : getGame s.games gid = some g := by
      rw [hget0, hgg]
    rw [onClose_main hm hgid hgetg hr]
    rw [if_pos hslotc]
    show (g.roleSlot r.other = none →
        getGame (if ¬(g.setRoleSlot r none).rolesP1.isSome ∧
            ¬(g.setRoleSlot r none).rolesP2.isSome then
          ({ s with games := gamesDelete (setGame s.games (g.setRoleSlot r none)) gid,
                    clientMeta := mdelete s.clientMeta c } : ServerState)
        else
          { s with games := setGame s.games (g.setRoleSlot r none),
                   clientMeta := mdelete s.clientMeta c }).games gid = none) ∧
      (∀ d, g.roleSlot r.other = some d →
        ∃ g', getGame (if ¬(g.setRoleSlot r none).rolesP1.isSome ∧
            ¬(g.setRoleSlot r none).rolesP2.isSome then
          ({ s with games := gamesDelete (setGame s.games (g.setRoleSlot r none)) gid,
                    clientMeta := mdelete s.clientMeta c } : ServerState)
        else
          { s with games := setGame s.games (g.setRoleSlot r none),
                   clientMeta := mdelete s.clientMeta c }).games gid = some g' ∧
          g'.roleSlot r = none ∧ g'.roleSlot r.other = some d ∧
          g'.scoresP1 = g.scoresP1 ∧ g'.scoresP2 = g.scoresP2)
    constructor
    · intro hnone
      have hcond : ¬(g.setRoleSlot r none).rolesP1.isSome = true ∧
          ¬(g.setRoleSlot r none).rolesP2.isSome = true := by
        cases r <;> simp [Game.roleSlot, Role.other] at hnone <;>
          simp [Game.setRoleSlot, hnone]
      rw [if_pos hcond]
      exact getGame_gamesDelete_self (by rw [ids_setGame]; exact hIds)
    · intro d hd
      have hcond : ¬(¬(g.setRoleSlot r none).rolesP1.isSome = true ∧
          ¬(g.setRoleSlot r none).rolesP2.isSome = true) := by
        cases r <;> simp [Game.roleSlot, Role.other] at hd <;>
          simp [Game.setRoleSlot, hd]
      rw [if_neg hcond]
      refine ⟨g.setRoleSlot r none, ?_, Game.roleSlot_setRoleSlot_self g r none,
        ?_, Game.scoresP1_setRoleSlot g r none, Game.scoresP2_setRoleSlot g r none⟩
      · rw [show gid = (g.setRoleSlot r none).id from by
          rw [Game.id_setRoleSlot]
          exact (getGame_mem hgetg).2.symm]
        exact getGame_setGame_self
          (show getGame s.games (g.setRoleSlot r none).id = some g from by
            rw [Game.id_setRoleSlot, (getGame_mem hgetg).2]
            exact hgetg)
      · rw [Game.roleSlot_setRoleSlot_ne g r r.other none (Role.other_ne r)]
        exact hd

theorem spec_C4_witness :
    mlookup sW.clientMeta 10 = some ⟨some .p1, true, some 1⟩ ∧
    getGame sW.games 1 = some gW ∧ gW.roleSlot Role.p1.other = some 20 ∧
    mlookup (onClose sW 10).clientMeta 10 = none ∧
    (∃ g', getGame (onClose sW 10).games 1 = some g' ∧
      g'.roleSlot .p1 = none ∧ g'.roleSlot Role.p1.other = some 20 ∧
      g'.scoresP1 = gW.scoresP1 ∧ g'.scoresP2 = gW.scoresP2) :=
  ⟨by decide, by decide, by decide,
   (spec_C4 sW_reachable).1 10,
   ((spec_C4 sW_reachable).2 10 ⟨some .p1, true, some 1⟩ .p1 1 gW
     (by decide) rfl rfl (by decide)).2 20 (by decide)⟩

/-! ### C7 -/

/-- C7: a join-request from a fully assigned connection changes nothing
and only re-sends that session's current score state to the requester. -/
theorem spec_C7 {env : Env} {s : ServerState} {ws : ConnId}
    {dr : String} {m : Meta} {r : Role} {gid : Nat} (h : Reachable s)
    (hm : mlookup s.clientMeta ws = some m) (hr : m.role = some r)
    (hgid : m.gameId = some gid) (hopen : env.openConn ws = true) :
    ∃ g, getGame s.games gid = some g ∧
      assignClientToGame env s ws dr =
        (s, [(ws, .scoreUpdate g.scoresP1 g.scoresP2 pointsToWin)]) := by
  have hInv := inv_of_reachable h
  rcases hInv.2.2.2.2.1 ws m hm with ⟨h1, _⟩ | ⟨r0, gid0', g0, h1, h2, hg0mem, hg0id, hg0slot⟩
  · rw [hr] at h1
    cases h1
  rw [hgid] at h2
  injection h2 with h2
  have hget0 : getGame s.games gid = some g0 := by
    rw [← show g0.id = gid from by rw [hg0id, ← h2]]
    exact getGame_of_mem_nodup hInv.2.1 hg0mem
  refine ⟨g0, hget0, ?_⟩
  unfold assignClientToGame
  rw [hm]
  show (if m.gameId.isSome = true ∧ m.role.isSome = true then
      (s, sendScoreUpdate env s ws)
    else assignFresh env s ws (if dr = "p2" then Role.p2 else Role.p1)) = _
  rw [if_pos ⟨by rw [hgid]; rfl, by rw [hr]; rfl⟩]
  unfold sendScoreUpdate getGameForSocket
  rw [hm]
  obtain ⟨mrole, malive, mgid⟩ := m
  simp only at hgid
  subst hgid
  show (s, (match getGame s.games gid with
    | none => ([] : Sends)
    | some game =>
        safeSend env ws (.scoreUpdate game.scoresP1 game.scoresP2 pointsToWin))) = _
  rw [hget0]
  show (s, safeSend env ws (.scoreUpdate g0.scoresP1 g0.scoresP2 pointsToWin)) = _
  unfold safeSend
  rw [hopen]
  rfl

theorem spec_C7_witness :
    mlookup sW.clientMeta 10 = some ⟨some .p1, true, some 1⟩ ∧
    envW.openConn 10 = true ∧
    (∃ g, getGame sW.games 1 = some g ∧
      assignClientToGame envW sW 10 "p2" =
        (sW, [(10, .scoreUpdate g.scoresP1 g.scoresP2 pointsToWin)])) :=
  ⟨by decide, rfl,
   @spec_C7 envW sW 10 "p2" ⟨some .p1, true, some 1⟩ .p1 1 sW_reachable
     (by decide) rfl rfl rfl⟩

/-! ### Dispatch helpers for the relay claims -/

theorem onMessage_state_eq {env : Env} {s : ServerState} {ws : ConnId}
    {data : JVal} (htr : data.truthy = true)
    (hty : (data.getField "type").asStr = some "state") :
    onMessage env s ws (some data) = (s, handleState env s ws data) := by
  show (if data.truthy = true then
      (match (data.getField "type").asStr with
        | none => (s, ([] : Sends))
        | some ty =>
            if ty = "hello" then handleHello env s ws data
            else if ty = "state" then (s, handleState env s ws data)
            else if ty = "shot" then (s, handleShot env s ws data)
            else if ty = "hit" then handleHit env s ws data
            else if ty = "reset-match" then handleResetMatch env s ws
            else (s, []))
    else (s, [])) = (s, handleState env s ws data)
  rw [if_pos htr, hty]
  rfl

theorem onMessage_shot_eq {env : Env} {s : ServerState} {ws : ConnId}
    {data : JVal} (htr : data.truthy = true)
    (hty : (data.getField "type").asStr = some "shot") :
    onMessage env s ws (some data) = (s, handleShot env s ws data) := by
  show (if data.truthy = true then
      (match (data.getField "type").asStr with
        | none => (s, ([] : Sends))
        | some ty =>
            if ty = "hello" then handleHello env s ws data
            else if ty = "state" then (s, handleState env s ws data)
            else if ty = "shot" then (s, handleShot env s ws data)
            else if ty = "hit" then handleHit env s ws data
            else if ty = "reset-match" then handleResetMatch env s ws
            else (s, []))
    else (s, [])) = (s, handleShot env s ws data)
  rw [if_pos htr, hty]
  rfl

theorem handleState_relay {env : Env} {s : ServerState} {ws : ConnId}
    {data : JVal} {m : Meta} {r : Role} {gid : Nat} {g : Game}
    (hm : mlookup s.clientMeta ws = some m) (hr : m.role = some r)
    (hgid : m.gameId = some gid) (hget : getGame s.games gid = some g) :
    handleState env s ws data =
      (match g.roleSlot r.other with
        | none => []
        | some dest =>
            if env.openConn dest = true then
              safeSend env dest (stateMsg r data)
            else []) := by
  unfold handleState
  rw [hm]
  obtain ⟨mrole, malive, mgid⟩ := m
  simp only at hr hgid
  subst hr
  subst hgid
  show (match getGame s.games gid with
    | none => ([] : Sends)
    | some game =>
        match game.roleSlot r.other with
        | none => []
        | some dest =>
            if env.openConn dest = true then
              safeSend env dest (stateMsg r data)
            else []) = _
  rw [hget]

theorem handleShot_relay {env : Env} {s : ServerState} {ws : ConnId}
    {data : JVal} {m : Meta} {r : Role} {gid : Nat} {g : Game}
    (hm : mlookup s.clientMeta ws = some m) (hr : m.role = some r)
    (hgid : m.gameId = some gid) (hget : getGame s.games gid = some g) :
    handleShot env s ws data =
      (match g.roleSlot r.other with
        | none => []
        | some dest =>
            if env.openConn dest = true then
              safeSend env dest (shotMsg env r data)
            else []) := by
  unfold handleShot
  rw [hm]
  obtain ⟨mrole, malive, mgid⟩ := m
  simp only at hr hgid
  subst hr
  subst hgid
  show (match getGame s.games gid with
    | none => ([] : Sends)
    | some game =>
        match game.roleSlot r.other with
        | none => []
        | some dest =>
            if env.openConn dest = true then
              safeSend env dest (shotMsg env r data)
            else []) = _
  rw [hget]

/-! ### C5 -/

/-- C5: a state-update never mutates state; it is forwarded to the peer
slot only when that peer is open (dropped otherwise, and dropped when the
sender has no role/session); `snapX, snapY, crouch, aimX, aimY, exposure,
t` are coerced to the numeric value or 0, while `targetX/Y/Z` become a
null marker (`none`, distinct from 0) when missing or non-numeric. -/
theorem spec_C5 {env : Env} {s : ServerState} {ws : ConnId} {data : JVal} :
    (data.truthy = true → (data.getField "type").asStr = some "state" →
      onMessage env s ws (some data) = (s, handleState env s ws data)) ∧
    (mlookup s.clientMeta ws = none → handleState env s ws data = []) ∧
    (∀ m, mlookup s.clientMeta ws = some m →
      m.role = none ∨ m.gameId = none → handleState env s ws data = []) ∧
    (∀ m r gid g, mlookup s.clientMeta ws = some m → m.role = some r →
      m.gameId = some gid → getGame s.games gid = some g →
      (g.roleSlot r.other = none → handleState env s ws data = []) ∧
      (∀ d, g.roleSlot r.other = some d → env.openConn d = false →
        handleState env s ws data = []) ∧
      (∀ d, g.roleSlot r.other = some d → env.openConn d = true →
        handleState env s ws data =
          [(d, .remoteState r
            ((data.getField "snapX").asNum.getD 0)
            ((data.getField "snapY").asNum.getD 0)
            ((data.getField "crouch").asNum.getD 0)
            ((data.getField "aimX").asNum.getD 0)
            ((data.getField "aimY").asNum.getD 0)
            ((data.getField "exposure").asNum.getD 0)
            (data.getField "targetX").asNum
            (data.getField "targetY").asNum
            (data.getField "targetZ").asNum
            ((data.getField "t").asNum.getD 0))])) := by
  refine ⟨fun htr hty => onMessage_state_eq htr hty, ?_, ?_, ?_⟩
  · intro hm
    unfold handleState
    rw [hm]
  · intro m hm hor
    unfold handleState
    rw [hm]
    obtain ⟨mrole, malive, mgid⟩ := m
    simp only at hor
    rcases hor with h | h
    · subst h
      rfl
    · subst h
      rcases mrole with _ | r <;> rfl
  · intro m r gid g hm hr hgid hget
    rw [handleState_relay hm hr hgid hget]
    refine ⟨?_, ?_, ?_⟩
    · intro hnone
      rw [hnone]
    · intro d hd hclosed
      rw [hd]
      show (if env.openConn d = true then safeSend env d (stateMsg r data)
        else []) = []
      rw [hclosed]
      rfl
    · intro d hd hopen
      rw [hd]
      show (if env.openConn d = true then safeSend env d (stateMsg r data)
        else []) = _
      rw [hopen]
      show safeSend env d (stateMsg r data) = _
      unfold safeSend
      rw [hopen]
      rfl

theorem spec_C5_witness :
    mlookup sW.clientMeta 10 = some ⟨some .p1, true, some 1⟩ ∧
    getGame sW.games 1 = some gW ∧ gW.roleSlot Role.p1.other = some 20 ∧
    envW.openConn 20 = true ∧
    handleState envW sW 10
        (.obj [("type", .str "state"), ("snapX", .num (3 / 2))]) =
      [(20, .remoteState .p1 (3 / 2) 0 0 0 0 0 none none none 0)] :=
  ⟨by decide, by decide, by decide, rfl,
    (((@spec_C5 envW sW 10
      (.obj [("type", .str "state"), ("snapX", .num (3 / 2))])).2.2.2
      ⟨some .p1, true, some 1⟩ .p1 1 gW (by decide) rfl rfl
      (by decide)).2.2 20 (by decide) rfl).trans (by rfl)⟩

/-! ### C6 -/

/-- A shot payload whose `start` field is present but falsy (the number 0). -/
def shotData0 : JVal := .obj [("type", .str "shot"), ("start", .num 0)]

/-- C6 counterexample: in the two-player state `sW`, a shot-event whose
`start` field is present (the number 0) is forwarded with `start = null`,
not with the sender's value: `data.start || null` discards present-but-
falsy values, so "passed through unvalidated if present" fails. -/
theorem spec_C6_counterexample :
    shotData0.getField "start" = JVal.num 0 ∧
    handleShot envW sW 10 shotData0 =
      [(20, .shot .p1 .null .null none none 0)] ∧
    JVal.null ≠ JVal.num 0 :=
  ⟨rfl, rfl, fun h => JVal.noConfusion h⟩

/-- C6 amended: the forwarded shot carries `start`/`velocity` unchanged
when present and truthy and the null marker when absent or falsy, carries
`radius` only when present and numeric, `color` only when present and
truthy, and `t` equal to the sender's `t` when present and numeric and
the server's current relay time otherwise. -/
theorem spec_C6_amended {env : Env} {s : ServerState} {ws : ConnId}
    {data : JVal} {m : Meta} {r : Role} {gid : Nat} {g : Game} {d : ConnId}
    (hm : mlookup s.clientMeta ws = some m) (hr : m.role = some r)
    (hgid : m.gameId = some gid) (hget : getGame s.games gid = some g)
    (hpeer : g.roleSlot r.other = some d) (hopen : env.openConn d = true) :
    handleShot env s ws data =
      [(d, .shot r
        (if (data.getField "start").truthy = true
          then data.getField "start" else .null)
        (if (data.getField "velocity").truthy = true
          then data.getField "velocity" else .null)
        (data.getField "radius").asNum
        (if (data.getField "color").truthy = true
          then some (data.getField "color") else none)
        ((data.getField "t").asNum.getD env.now))] := by
  rw [handleShot_relay hm hr hgid hget, hpeer]
  show (if env.openConn d = true then safeSend env d (shotMsg env r data)
    else []) = _
  rw [hopen]
  show safeSend env d (shotMsg env r data) = _
  unfold safeSend
  rw [hopen]
  rfl

/-- A shot payload with a truthy `start` vector and numeric `t`. -/
def shotDataW : JVal :=
  .obj [("type", .str "shot"), ("start", .obj [("x", .num 1)]), ("t", .num 5)]

theorem spec_C6_amended_witness :
    mlookup sW.clientMeta 10 = some ⟨some .p1, true, some 1⟩ ∧
    getGame sW.games 1 = some gW ∧ gW.roleSlot Role.p1.other = some 20 ∧
    envW.openConn 20 = true ∧
    handleShot envW sW 10 shotDataW =
      [(20, .shot .p1 (.obj [("x", .num 1)]) .null none none 5)] :=
  ⟨by decide, by decide, by decide, rfl,
   (@spec_C6_amended envW sW 10 shotDataW ⟨some .p1, true, some 1⟩ .p1 1 gW 20
     (by decide) rfl rfl (by decide) (by decide) rfl).trans (by rfl)⟩

/-! ### C8 -/

theorem handleState_unassigned {env : Env} {s : ServerState} {ws : ConnId}
    {data : JVal}
    (h : mlookup s.clientMeta ws = none ∨
      ∃ m, mlookup s.clientMeta ws = some m ∧ m.role = none ∧ m.gameId = none) :
    handleState env s ws data = [] := by
  unfold handleState
  rcases h with h | ⟨m, hm, hrole, hgid⟩
  · rw [h]
  · rw [hm]
    obtain ⟨mrole, malive, mgid⟩ := m
    simp only at hrole hgid
    subst hrole
    subst hgid
    rfl

theorem handleShot_unassigned {env : Env} {s : ServerState} {ws : ConnId}
    {data : JVal}
    (h : mlookup s.clientMeta ws = none ∨
      ∃ m, mlookup s.clientMeta ws = some m ∧ m.role = none ∧ m.gameId = none) :
    handleShot env s ws data = [] := by
  unfold handleShot
  rcases h with h | ⟨m, hm, hrole, hgid⟩
  · rw [h]
  · rw [hm]
    obtain ⟨mrole, malive, mgid⟩ := m
    simp only at hrole hgid
    subst hrole
    subst hgid
    rfl

theorem handleHit_unassigned {env : Env} {s : ServerState} {ws : ConnId}
    {data : JVal}
    (h : mlookup s.clientMeta ws = none ∨
      ∃ m, mlookup s.clientMeta ws = some m ∧ m.role = none ∧ m.gameId = none) :
    handleHit env s ws data = (s, []) := by
  unfold handleHit
  rcases h with h | ⟨m, hm, hrole, hgid⟩
  · rw [h]
  · rw [hm]
    obtain ⟨mrole, malive, mgid⟩ := m
    simp only at hrole hgid
    subst hrole
    subst hgid
    rfl

theorem handleResetMatch_unassigned {env : Env} {s : ServerState} {ws : ConnId}
    (h : mlookup s.clientMeta ws = none ∨
      ∃ m, mlookup s.clientMeta ws = some m ∧ m.role = none ∧ m.gameId = none) :
    handleResetMatch env s ws = (s, []) := by
  unfold handleResetMatch
  rcases h with h | ⟨m, hm, hrole, hgid⟩
  · rw [h]
  · rw [hm]
    obtain ⟨mrole, malive, mgid⟩ := m
    simp only at hrole hgid
    subst hgid
    rfl

theorem onMessage_hit_eq {env : Env} {s : ServerState} {ws : ConnId}
    {data : JVal} (htr : data.truthy = true)
    (hty : (data.getField "type").asStr = some "hit") :
    onMessage env s ws (some data) = handleHit env s ws data := by
  show (if data.truthy = true then
      (match (data.getField "type").asStr with
        | none => (s, ([] : Sends))
        | some ty =>
            if ty = "hello" then handleHello env s ws data
            else if ty = "state" then (s, handleState env s ws data)
            else if ty = "shot" then (s, handleShot env s ws data)
            else if ty = "hit" then handleHit env s ws data
            else if ty = "reset-match" then handleResetMatch env s ws
            else (s, []))
    else (s, [])) = handleHit env s ws data
  rw [if_pos htr, hty]
  rfl

theorem onMessage_reset_eq {env : Env} {s : ServerState} {ws : ConnId}
    {data : JVal} (htr : data.truthy = true)
    (hty : (data.getField "type").asStr = some "reset-match") :
    onMessage env s ws (some data) = handleResetMatch env s ws := by
  show (if data.truthy = true then
      (match (data.getField "type").asStr with
        | none => (s, ([] : Sends))
        | some ty =>
            if ty = "hello" then handleHello env s ws data
            else if ty = "state" then (s, handleState env s ws data)
            else if ty = "shot" then (s, handleShot env s ws data)
            else if ty = "hit" then handleHit env s ws data
            else if ty = "reset-match" then handleResetMatch env s ws
            else (s, []))
    else (s, [])) = handleResetMatch env s ws
  rw [if_pos htr, hty]
  rfl

/-- C8: unparseable input, falsy parses, a missing or non-string `type`,
an unrecognized `type`, and precondition-failing relay/score/reset
messages are all dropped silently: no reply and no state change (the
handlers contain no close or error path, so the connection stays open). -/
theorem spec_C8 {env : Env} {s : ServerState} {ws : ConnId} :
    (onMessage env s ws none = (s, [])) ∧
    (∀ data : JVal, data.truthy = false →
      onMessage env s ws (some data) = (s, [])) ∧
    (∀ data : JVal, data.truthy = true →
      (data.getField "type").asStr = none →
      onMessage env s ws (some data) = (s, [])) ∧
    (∀ (data : JVal) (ty : String), data.truthy = true →
      (data.getField "type").asStr = some ty →
      ty ≠ "hello" → ty ≠ "state" → ty ≠ "shot" → ty ≠ "hit" →
      ty ≠ "reset-match" → onMessage env s ws (some data) = (s, [])) ∧
    ((mlookup s.clientMeta ws = none ∨
        (∃ m, mlookup s.clientMeta ws = some m ∧ m.role = none ∧
          m.gameId = none)) →
      ∀ (data : JVal) (ty : String), data.truthy = true →
        (data.getField "type").asStr = some ty →
        ty = "state" ∨ ty = "shot" ∨ ty = "hit" ∨ ty = "reset-match" →
        onMessage env s ws (some data) = (s, [])) := by
  refine ⟨rfl, ?_, ?_, ?_, ?_⟩
  · intro data htr
    show (if data.truthy = true then _ else (s, [])) = (s, [])
    rw [htr]
    rfl
  · intro data htr hty
    show (if data.truthy = true then
        (match (data.getField "type").asStr with
          | none => (s, ([] : Sends))
          | some ty =>
              if ty = "hello" then handleHello env s ws data
              else if ty = "state" then (s, handleState env s ws data)
              else if ty = "shot" then (s, handleShot env s ws data)
              else if ty = "hit" then handleHit env s ws data
              else if ty = "reset-match" then handleResetMatch env s ws
              else (s, []))
      else (s, [])) = (s, [])
    rw [if_pos htr, hty]
  · intro data ty htr hty h1 h2 h3 h4 h5
    show (if data.truthy = true then
        (match (data.getField "type").asStr with
          | none => (s, ([] : Sends))
          | some ty =>
              if ty = "hello" then handleHello env s ws data
              else if ty = "state" then (s, handleState env s ws data)
              else if ty = "shot" then (s, handleShot env s ws data)
              else if ty = "hit" then handleHit env s ws data
              else if ty = "reset-match" then handleResetMatch env s ws
              else (s, []))
      else (s, [])) = (s, [])
    rw [if_pos htr, hty]
    show (if ty = "hello" then handleHello env s ws data
      else if ty = "state" then (s, handleState env s ws data)
      else if ty = "shot" then (s, handleShot env s ws data)
      else if ty = "hit" then handleHit env s ws data
      else if ty = "reset-match" then handleResetMatch env s ws
      else (s, [])) = (s, [])
    rw [if_neg h1, if_neg h2, if_neg h3, if_neg h4, if_neg h5]
  · intro h data ty htr hty hsel
    rcases hsel with h' | h' | h' | h'
    · subst h'
      rw [onMessage_state_eq htr hty, handleState_unassigned h]
    · subst h'
      rw [onMessage_shot_eq htr hty, handleShot_unassigned h]
    · subst h'
      rw [onMessage_hit_eq htr hty]
      exact handleHit_unassigned h
    · subst h'
      rw [onMessage_reset_eq htr hty]
      exact handleResetMatch_unassigned h

theorem spec_C8_witness :
    onMessage envW sW 10 (some (.obj [("type", .str "frobnicate")])) = (sW, []) ∧
    onMessage envW sW 99 (some (.obj [("type", .str "state")])) = (sW, []) ∧
    onMessage envW sW 10 none = (sW, []) :=
  ⟨(@spec_C8 envW sW 10).2.2.2.1 (.obj [("type", .str "frobnicate")])
      "frobnicate" rfl rfl (by decide) (by decide) (by decide) (by decide)
      (by decide),
   (@spec_C8 envW sW 99).2.2.2.2 (Or.inl (by decide))
      (.obj [("type", .str "state")]) "state" rfl rfl (Or.inl rfl),
   (@spec_C8 envW sW 10).1⟩

/-! ### C3 -/

/-- The occupied-slot count of a session. -/
def occupancy (g : Game) : Nat :=
  (if (g.roleSlot .p1).isSome then 1 else 0) +
    (if (g.roleSlot .p2).isSome then 1 else 0)

/-- The matchmaking loop is a first-fit search: it returns the first
session (in creation order) whose occupancy is below 2 and whose
requested slot is empty. -/
theorem findOpenGame_eq_find (r : Role) (l : List Game) :
    findOpenGame r l =
      l.find? (fun g => decide (occupancy g < 2) && (g.roleSlot r).isNone) := by
  induction l with
  | nil => rfl
  | cons g rest ih =>
      rw [findOpenGame]
      by_cases hfull :
          ((if g.rolesP1.isSome = true then 1 else 0) +
            (if g.rolesP2.isSome = true then 1 else 0) : Nat) ≥
            MAX_PLAYERS_PER_GAME
      · rw [if_pos hfull]
        have hnot : ¬ occupancy g < 2 := Nat.not_lt.mpr hfull
        rw [List.find?_cons_of_neg _ (by simp [decide_eq_false hnot])]
        exact ih
      · rw [if_neg hfull]
        have hlt : occupancy g < 2 := Nat.lt_of_not_le hfull
        by_cases hempty : (g.roleSlot r).isNone = true
        · rw [if_pos hempty]
          rw [List.find?_cons_of_pos _ (by simp [hempty, decide_eq_true_eq, hlt])]
        · rw [if_neg hempty]
          rw [List.find?_cons_of_neg _ (by simp [hempty])]
          exact ih

theorem getGame_append_of_ne {l : List Game} {g0 : Game} {gid : Nat}
    (hne : g0.id ≠ gid) : getGame (l ++ [g0]) gid = getGame l gid := by
  induction l with
  | nil => simp [getGame, hne]
  | cons y rest ih =>
      rw [List.cons_append, getGame, getGame]
      by_cases hy : y.id = gid
      · rw [if_pos hy, if_pos hy]
      · rw [if_neg hy, if_neg hy]
        exact ih

theorem getGame_append_self {l : List Game} {g0 : Game}
    (h : getGame l g0.id = none) : getGame (l ++ [g0]) g0.id = some g0 := by
  induction l with
  | nil => simp [getGame]
  | cons y rest ih =>
      rw [getGame] at h
      by_cases hy : y.id = g0.id
      · rw [if_pos hy] at h
        cases h
      · rw [if_neg hy] at h
        rw [List.cons_append, getGame, if_neg hy]
        exact ih h

/-- Full effect of `claimRole`: the target's slot is claimed, every other
game is untouched, the counter is untouched, the record is bound, and the
score state of the joined game is sent to the joiner only. -/
theorem claimRole_spec {env : Env} {s : ServerState} {ws : ConnId}
    {role : Role} {targetGame : Game} {m0 : Meta}
    (hIds : (s.games.map Game.id).Nodup)
    (hm : mlookup s.clientMeta ws = some m0)
    (hmem : targetGame ∈ s.games) (hopen : env.openConn ws = true) :
    (claimRole env s ws role targetGame).1.nextGameId = s.nextGameId ∧
    getGame (claimRole env s ws role targetGame).1.games targetGame.id =
      some (targetGame.setRoleSlot role (some ws)) ∧
    (∀ gid, gid ≠ targetGame.id →
      getGame (claimRole env s ws role targetGame).1.games gid =
        getGame s.games gid) ∧
    mlookup (claimRole env s ws role targetGame).1.clientMeta ws =
      some { m0 with role := some role, gameId := some targetGame.id } ∧
    (claimRole env s ws role targetGame).2 =
      [(ws, .scoreUpdate targetGame.scoresP1 targetGame.scoresP2 pointsToWin)] := by
  have hG2id : (targetGame.setRoleSlot role (some ws)).id = targetGame.id :=
    Game.id_setRoleSlot _ _ _
  have hgetT : getGame s.games targetGame.id = some targetGame :=
    getGame_of_mem_nodup hIds hmem
  have hlookup : mlookup (claimRole env s ws role targetGame).1.clientMeta ws =
      some { m0 with role := some role, gameId := some (targetGame.setRoleSlot role (some ws)).id } := by
    show mlookup (mupdate s.clientMeta ws _) ws = _
    rw [mlookup_mupdate_self, hm]
    rfl
  have hgetG2 : getGame (claimRole env s ws role targetGame).1.games
      targetGame.id = some (targetGame.setRoleSlot role (some ws)) := by
    show getGame (setGame s.games (targetGame.setRoleSlot role (some ws)))
      targetGame.id = _
    rw [← hG2id]
    exact getGame_setGame_self (by rw [hG2id]; exact hgetT)
  refine ⟨rfl, hgetG2, ?_, ?_, ?_⟩
  · intro gid hgid
    show getGame (setGame s.games (targetGame.setRoleSlot role (some ws))) gid = _
    exact getGame_setGame_ne _ _ _ (by rw [hG2id]; exact hgid)
  · rw [hlookup, hG2id]
  · show sendScoreUpdate env (claimRole env s ws role targetGame).1 ws = _
    unfold sendScoreUpdate getGameForSocket
    rw [hlookup]
    show (match getGame (claimRole env s ws role targetGame).1.games
        (targetGame.setRoleSlot role (some ws)).id with
      | none => ([] : Sends)
      | some game =>
          safeSend env ws (.scoreUpdate game.scoresP1 game.scoresP2 pointsToWin)) = _
    rw [hG2id, hgetG2]
    show safeSend env ws (.scoreUpdate
      (targetGame.setRoleSlot role (some ws)).scoresP1
      (targetGame.setRoleSlot role (some ws)).scoresP2 pointsToWin) = _
    unfold safeSend
    rw [hopen, Game.scoresP1_setRoleSlot, Game.scoresP2_setRoleSlot]
    rfl

/-- Full effect of the find-or-create path of `assignClientToGame`. -/
theorem assignFresh_spec {env : Env} {s : ServerState} {ws : ConnId}
    {role : Role} {m0 : Meta}
    (hIds : (s.games.map Game.id).Nodup)
    (hBound : ∀ g ∈ s.games, g.id < s.nextGameId)
    (hm : mlookup s.clientMeta ws = some m0)
    (hopen : env.openConn ws = true) :
    (∀ g, findOpenGame role s.games = some g →
      (assignFresh env s ws role).1.nextGameId = s.nextGameId ∧
      getGame (assignFresh env s ws role).1.games g.id =
        some (g.setRoleSlot role (some ws)) ∧
      (∀ gid, gid ≠ g.id →
        getGame (assignFresh env s ws role).1.games gid = getGame s.games gid) ∧
      mlookup (assignFresh env s ws role).1.clientMeta ws =
        some ⟨some role, m0.isAlive, some g.id⟩ ∧
      (assignFresh env s ws role).2 =
        [(ws, .scoreUpdate g.scoresP1 g.scoresP2 pointsToWin)]) ∧
    (findOpenGame role s.games = none →
      s.nextGameId ∉ s.games.map Game.id ∧
      (assignFresh env s ws role).1.nextGameId = s.nextGameId + 1 ∧
      getGame (assignFresh env s ws role).1.games s.nextGameId =
        some ((⟨s.nextGameId, none, none, 0, 0⟩ : Game).setRoleSlot role (some ws)) ∧
      (∀ gid, gid ≠ s.nextGameId →
        getGame (assignFresh env s ws role).1.games gid = getGame s.games gid) ∧
      mlookup (assignFresh env s ws role).1.clientMeta ws =
        some ⟨some role, m0.isAlive, some s.nextGameId⟩ ∧
      (assignFresh env s ws role).2 = [(ws, .scoreUpdate 0 0 pointsToWin)]) := by
  have hfreshNotMem : s.nextGameId ∉ s.games.map Game.id := by
    intro hmem
    obtain ⟨g, hg, hgid⟩ := List.mem_map.mp hmem
    exact absurd (hgid ▸ hBound g hg) (lt_irrefl _)
  unfold assignFresh
  rcases hfind : findOpenGame role s.games with _ | target
  · refine ⟨fun g hg => Option.noConfusion hg, fun _ => ?_⟩
    have hIds2 : ((s.games ++
        [(⟨s.nextGameId, none, none, 0, 0⟩ : Game)]).map Game.id).Nodup := by
      rw [List.map_append]
      refine List.Nodup.append hIds (by simp) ?_
      intro x hx hx'
      simp only [List.map_cons, List.map_nil, List.mem_singleton] at hx'
      subst hx'
      exact hfreshNotMem hx
    have hspec := @claimRole_spec env
      { s with games := s.games ++ [(⟨s.nextGameId, none, none, 0, 0⟩ : Game)],
               nextGameId := s.nextGameId + 1 }
      ws role ⟨s.nextGameId, none, none, 0, 0⟩ m0 hIds2 hm
      (List.mem_append_right _ (List.mem_singleton.mpr rfl)) hopen
    obtain ⟨h1, h2, h3, h4, h5⟩ := hspec
    refine ⟨hfreshNotMem, h1, h2, ?_, h4, h5⟩
    intro gid hgid
    rw [h3 gid hgid]
    exact getGame_append_of_ne (fun he => hgid he.symm)
  · refine ⟨?_, fun hc => Option.noConfusion hc⟩
    intro g hg
    injection hg with hg
    subst hg
    obtain ⟨hmem, _⟩ := findOpenGame_mem hfind
    exact claimRole_spec hIds hm hmem hopen

/-- C3: a join-request from an unassigned connection selects the first
session (in creation order) with occupancy below 2 and the requested slot
empty; failing that it creates a new session with a fresh unique id,
empty slots and zero scores; the chosen slot is claimed, the record is
bound, every other session and the counter (on the first-fit path) are
untouched, and the current score state is sent to the joiner only. -/
theorem spec_C3 {env : Env} {s : ServerState} {ws : ConnId} {dr : String}
    {r : Role} (h : Reachable s)
    (hrr : (if dr = "p2" then Role.p2 else Role.p1) = r)
    (hna : mlookup s.clientMeta ws = none ∨
      ∃ m, mlookup s.clientMeta ws = some m ∧ m.role = none ∧ m.gameId = none)
    (hopen : env.openConn ws = true) :
    (findOpenGame r s.games =
      s.games.find? (fun g => decide (occupancy g < 2) && (g.roleSlot r).isNone)) ∧
    (∀ g, findOpenGame r s.games = some g →
      (assignClientToGame env s ws dr).1.nextGameId = s.nextGameId ∧
      getGame (assignClientToGame env s ws dr).1.games g.id =
        some (g.setRoleSlot r (some ws)) ∧
      (∀ gid, gid ≠ g.id →
        getGame (assignClientToGame env s ws dr).1.games gid =
          getGame s.games gid) ∧
      (∃ b, mlookup (assignClientToGame env s ws dr).1.clientMeta ws =
        some ⟨some r, b, some g.id⟩) ∧
      (assignClientToGame env s ws dr).2 =
        [(ws, .scoreUpdate g.scoresP1 g.scoresP2 pointsToWin)]) ∧
    (findOpenGame r s.games = none →
      s.nextGameId ∉ s.games.map Game.id ∧
      (assignClientToGame env s ws dr).1.nextGameId = s.nextGameId + 1 ∧
      getGame (assignClientToGame env s ws dr).1.games s.nextGameId =
        some ((⟨s.nextGameId, none, none, 0, 0⟩ : Game).setRoleSlot r (some ws)) ∧
      (∀ gid, gid ≠ s.nextGameId →
        getGame (assignClientToGame env s ws dr).1.games gid =
          getGame s.games gid) ∧
      (∃ b, mlookup (assignClientToGame env s ws dr).1.clientMeta ws =
        some ⟨some r, b, some s.nextGameId⟩) ∧
      (assignClientToGame env s ws dr).2 = [(ws, .scoreUpdate 0 0 pointsToWin)]) := by
  have hInv := inv_of_reachable h
  subst hrr
  have key :
      (∀ g, findOpenGame (if dr = "p2" then Role.p2 else Role.p1) s.games =
          some g →
        (assignClientToGame env s ws dr).1.nextGameId = s.nextGameId ∧
        getGame (assignClientToGame env s ws dr).1.games g.id =
          some (g.setRoleSlot (if dr = "p2" then Role.p2 else Role.p1) (some ws)) ∧
        (∀ gid, gid ≠ g.id →
          getGame (assignClientToGame env s ws dr).1.games gid =
            getGame s.games gid) ∧
        (∃ b, mlookup (assignClientToGame env s ws dr).1.clientMeta ws =
          some ⟨some (if dr = "p2" then Role.p2 else Role.p1), b, some g.id⟩) ∧
        (assignClientToGame env s ws dr).2 =
          [(ws, .scoreUpdate g.scoresP1 g.scoresP2 pointsToWin)]) ∧
      (findOpenGame (if dr = "p2" then Role.p2 else Role.p1) s.games = none →
        s.nextGameId ∉ s.games.map Game.id ∧
        (assignClientToGame env s ws dr).1.nextGameId = s.nextGameId + 1 ∧
        getGame (assignClientToGame env s ws dr).1.games s.nextGameId =
          some ((⟨s.nextGameId, none, none, 0, 0⟩ : Game).setRoleSlot
            (if dr = "p2" then Role.p2 else Role.p1) (some ws)) ∧
        (∀ gid, gid ≠ s.nextGameId →
          getGame (assignClientToGame env s ws dr).1.games gid =
            getGame s.games gid) ∧
        (∃ b, mlookup (assignClientToGame env s ws dr).1.clientMeta ws =
          some ⟨some (if dr = "p2" then Role.p2 else Role.p1), b,
            some s.nextGameId⟩) ∧
        (assignClientToGame env s ws dr).2 =
          [(ws, .scoreUpdate 0 0 pointsToWin)]) := by
    unfold assignClientToGame
    rcases hna with hlook | ⟨m, hlook, hrole, hgid⟩
    · rw [hlook]
      have hAF := @assignFresh_spec env
        { s with clientMeta := mset s.clientMeta ws ⟨none, true, none⟩ }
        ws (if dr = "p2" then Role.p2 else Role.p1) ⟨none, true, none⟩
        hInv.2.1 hInv.2.2.1 (mlookup_mset_self _ _ _) hopen
      constructor
      · intro g hg
        obtain ⟨h1, h2, h3, h4, h5⟩ := hAF.1 g hg
        exact ⟨h1, h2, h3, ⟨true, h4⟩, h5⟩
      · intro hnone
        obtain ⟨h0, h1, h2, h3, h4, h5⟩ := hAF.2 hnone
        exact ⟨h0, h1, h2, h3, ⟨true, h4⟩, h5⟩
    · rw [hlook]
      obtain ⟨mrole, malive, mgid⟩ := m
      simp only at hrole hgid
      subst hrole
      subst hgid
      have hAF := @assignFresh_spec env s ws
        (if dr = "p2" then Role.p2 else Role.p1) ⟨none, malive, none⟩
        hInv.2.1 hInv.2.2.1 hlook hopen
      constructor
      · intro g hg
        obtain ⟨h1, h2, h3, h4, h5⟩ := hAF.1 g hg
        exact ⟨h1, h2, h3, ⟨malive, h4⟩, h5⟩
      · intro hnone
        obtain ⟨h0, h1, h2, h3, h4, h5⟩ := hAF.2 hnone
        exact ⟨h0, h1, h2, h3, ⟨malive, h4⟩, h5⟩
  exact ⟨findOpenGame_eq_find _ _, key.1, key.2⟩

theorem spec_C3_witness :
    mlookup sW.clientMeta 30 = none ∧ envW.openConn 30 = true ∧
    findOpenGame Role.p1 sW.games = none ∧
    sW.nextGameId ∉ sW.games.map Game.id ∧
    (assignClientToGame envW sW 30 "p1").1.nextGameId = sW.nextGameId + 1 ∧
    getGame (assignClientToGame envW sW 30 "p1").1.games sW.nextGameId =
      some ((⟨sW.nextGameId, none, none, 0, 0⟩ : Game).setRoleSlot .p1 (some 30)) ∧
    (assignClientToGame envW sW 30 "p1").2 =
      [(30, .scoreUpdate 0 0 pointsToWin)] := by
  have key := (@spec_C3 envW sW 30 "p1" .p1 sW_reachable rfl
    (Or.inl (by decide)) rfl).2.2 (by decide)
  exact ⟨by decide, rfl, by decide, key.1, key.2.1, key.2.2.1, key.2.2.2.2.2⟩

/-! ### C1 -/

/-- Matching-id games in `post` have the same scores as in `pre`. -/
def scoresAgree (pre post : List Game) : Prop :=
  ∀ g ∈ pre, ∀ g' ∈ post, g'.id = g.id →
    g'.scoresP1 = g.scoresP1 ∧ g'.scoresP2 = g.scoresP2

/-- Every game of `post` descends from a same-id, same-scores game of
`pre` (no game is created). -/
def scoresMono (pre post : List Game) : Prop :=
  ∀ g' ∈ post, ∃ g, g ∈ pre ∧ g.id = g'.id ∧
    g'.scoresP1 = g.scoresP1 ∧ g'.scoresP2 = g.scoresP2

theorem scoresMono_refl (l : List Game) : scoresMono l l :=
  fun g' hg' => ⟨g', hg', rfl, rfl, rfl⟩

theorem scoresMono_trans {a b c : List Game} (h1 : scoresMono a b)
    (h2 : scoresMono b c) : scoresMono a c := by
  intro g' hg'
  obtain ⟨gb, hgb, hid2, hs2⟩ := h2 g' hg'
  obtain ⟨ga, hga, hid1, hs1⟩ := h1 gb hgb
  exact ⟨ga, hga, hid1.trans hid2, hs2.1.trans hs1.1, hs2.2.trans hs1.2⟩

theorem scoresAgree_refl {l : List Game} (hn : (l.map Game.id).Nodup) :
    scoresAgree l l := by
  intro g hg g' hg' hid
  have : g' = g := eq_of_mem_nodup_id hn hg' hg hid
  rw [this]
  exact ⟨rfl, rfl⟩

theorem scoresAgree_of_mono {pre post : List Game}
    (hn : (pre.map Game.id).Nodup) (h : scoresMono pre post) :
    scoresAgree pre post := by
  intro g hg g' hg' hid
  obtain ⟨g0, hg0, hid0, hs⟩ := h g' hg'
  have : g0 = g := eq_of_mem_nodup_id hn hg0 hg (by rw [hid0, hid])
  rw [this] at hs
  exact hs

theorem scoresMono_onClose (s : ServerState) (c : ConnId) :
    scoresMono s.games (onClose s c).games := by
  rcases hm : mlookup s.clientMeta c with _ | meta
  · rw [onClose_of_no_meta hm]
    exact scoresMono_refl _
  rcases hgid : meta.gameId with _ | gid
  · rw [onClose_of_no_gid hm hgid]
    exact scoresMono_refl _
  rcases hget : getGame s.games gid with _ | game
  · rw [onClose_of_no_game hm hgid hget]
    exact scoresMono_refl _
  rcases hr : meta.role with _ | r
  · rw [onClose_of_no_role hm hgid hget hr]
    exact scoresMono_refl _
  rw [onClose_main hm hgid hget hr]
  have hmem := (getGame_mem hget).1
  show scoresMono s.games
    (if ¬(if game.roleSlot r = some c then game.setRoleSlot r none
        else game).rolesP1.isSome ∧
      ¬(if game.roleSlot r = some c then game.setRoleSlot r none
        else game).rolesP2.isSome then
      ({ s with games := gamesDelete (setGame s.games (if game.roleSlot r = some c then game.setRoleSlot r none else game)) gid,
                clientMeta := mdelete s.clientMeta c } : ServerState)
    else
      { s with games := setGame s.games (if game.roleSlot r = some c then game.setRoleSlot r none else game),
               clientMeta := mdelete s.clientMeta c }).games
  have hmono2 : ∀ game2 : Game, game2.id = game.id →
      game2.scoresP1 = game.scoresP1 → game2.scoresP2 = game.scoresP2 →
      scoresMono s.games (setGame s.games game2) := by
    intro game2 hid hs1 hs2 g' hg'
    rcases mem_setGame hg' with he | hmemS
    · subst he
      exact ⟨game, hmem, hid.symm, hs1, hs2⟩
    · exact ⟨g', hmemS, rfl, rfl, rfl⟩
  by_cases hslot : game.roleSlot r = some c
  · rw [if_pos hslot]
    split
    · intro g' hg'
      exact hmono2 _ (Game.id_setRoleSlot _ _ _)
        (Game.scoresP1_setRoleSlot _ _ _) (Game.scoresP2_setRoleSlot _ _ _)
        g' (mem_gamesDelete hg')
    · exact hmono2 _ (Game.id_setRoleSlot _ _ _)
        (Game.scoresP1_setRoleSlot _ _ _) (Game.scoresP2_setRoleSlot _ _ _)
  · rw [if_neg hslot]
    split
    · intro g' hg'
      exact hmono2 game rfl rfl rfl g' (mem_gamesDelete hg')
    · exact hmono2 game rfl rfl rfl

theorem scoresMono_foldl_onClose (l : List ConnId) :
    ∀ s : ServerState, scoresMono s.games ((l.foldl onClose s)).games := by
  induction l with
  | nil => exact fun s => scoresMono_refl _
  | cons c rest ih =>
      intro s
      exact scoresMono_trans (scoresMono_onClose s c) (ih (onClose s c))

/-- The find-or-create path never touches the scores of a pre-existing
game (a fresh game has a fresh id, so it never shadows one). -/
theorem scoresAgree_assignFresh {env : Env} {ws : ConnId} {role : Role}
    {s : ServerState} (hIds : (s.games.map Game.id).Nodup)
    (hBound : ∀ g ∈ s.games, g.id < s.nextGameId) :
    scoresAgree s.games (assignFresh env s ws role).1.games := by
  have hfresh : ∀ g ∈ s.games, g.id ≠ s.nextGameId :=
    fun g hg he => absurd (he ▸ hBound g hg) (lt_irrefl _)
  unfold assignFresh
  rcases hfind : findOpenGame role s.games with _ | target
  · intro g hg g' hg' hid
    rcases mem_setGame (show g' ∈ setGame
        (s.games ++ [(⟨s.nextGameId, none, none, 0, 0⟩ : Game)])
        ((⟨s.nextGameId, none, none, 0, 0⟩ : Game).setRoleSlot role (some ws))
      from hg') with he | hmemS
    · subst he
      rw [Game.id_setRoleSlot] at hid
      exact absurd hid.symm (hfresh g hg)
    · rcases List.mem_append.mp hmemS with hmemS | hmemS
      · have : g' = g := eq_of_mem_nodup_id hIds hmemS hg hid
        rw [this]
        exact ⟨rfl, rfl⟩
      · simp only [List.mem_singleton] at hmemS
        subst hmemS
        exact absurd hid.symm (hfresh g hg)
  · obtain ⟨hmem, _⟩ := findOpenGame_mem hfind
    intro g hg g' hg' hid
    rcases mem_setGame (show g' ∈ setGame s.games
        (target.setRoleSlot role (some ws)) from hg') with he | hmemS
    · subst he
      rw [Game.id_setRoleSlot] at hid
      have : target = g := eq_of_mem_nodup_id hIds hmem hg hid
      rw [Game.scoresP1_setRoleSlot, Game.scoresP2_setRoleSlot, this]
      exact ⟨rfl, rfl⟩
    · have : g' = g := eq_of_mem_nodup_id hIds hmemS hg hid
      rw [this]
      exact ⟨rfl, rfl⟩

theorem scoresAgree_assign {env : Env} {s : ServerState} {ws : ConnId}
    {dr : String} (hInv : Inv s) :
    scoresAgree s.games (assignClientToGame env s ws dr).1.games := by
  unfold assignClientToGame
  rcases hlook : mlookup s.clientMeta ws with _ | m
  · exact @scoresAgree_assignFresh env ws (if dr = "p2" then Role.p2 else Role.p1)
      { s with clientMeta := mset s.clientMeta ws ⟨none, true, none⟩ }
      hInv.2.1 hInv.2.2.1
  · show scoresAgree s.games
      ((if m.gameId.isSome = true ∧ m.role.isSome = true then
          (s, sendScoreUpdate env s ws)
        else assignFresh env s ws
          (if dr = "p2" then Role.p2 else Role.p1)).1.games)
    by_cases hassigned : m.gameId.isSome = true ∧ m.role.isSome = true
    · rw [if_pos hassigned]
      exact scoresAgree_refl hInv.2.1
    · rw [if_neg hassigned]
      exact scoresAgree_assignFresh hInv.2.1 hInv.2.2.1

/-- A hit whose computed kind is a string other than `"enemy"` is a
complete no-op: no state change, no sends. -/
theorem handleHit_not_enemy {env : Env} {s : ServerState} {ws : ConnId}
    {data : JVal} (hk : hitKind data ≠ "enemy") :
    handleHit env s ws data = (s, []) := by
  unfold handleHit
  rcases hm : mlookup s.clientMeta ws with _ | ⟨mrole, malive, mgid⟩
  · rfl
  rcases mrole with _ | fromRole
  · rfl
  rcases mgid with _ | gid
  · rfl
  show (match getGame s.games gid with
    | none => (s, ([] : Sends))
    | some game =>
        let kind := hitKind data
        if kind = "enemy" then
          let game2 :=
            if fromRole = Role.p1 then
              { game with scoresP1 := game.scoresP1 + 1 }
            else
              { game with scoresP2 := game.scoresP2 + 1 }
          let s2 := { s with games := setGame s.games game2 }
          (s2, broadcastScoreUpdateForGame env s2 game2)
        else (s, [])) = (s, [])
  rcases hget : getGame s.games gid with _ | game
  · rfl
  show (if hitKind data = "enemy" then _ else (s, [])) = (s, [])
  rw [if_neg hk]

/-- A hit whose computed kind is `"enemy"` (including a missing or
non-string kind) increments the sender's own counter by 1 and touches no
other game. -/
theorem handleHit_enemy {env : Env} {s : ServerState} {ws : ConnId}
    {data : JVal} {m : Meta} {r : Role} {gid : Nat} {g : Game}
    (hk : hitKind data = "enemy")
    (hm : mlookup s.clientMeta ws = some m) (hr : m.role = some r)
    (hgid : m.gameId = some gid) (hget : getGame s.games gid = some g) :
    ∃ g', getGame (handleHit env s ws data).1.games gid = some g' ∧
      g'.score r = g.score r + 1 ∧ g'.score r.other = g.score r.other ∧
      ∀ gid', gid' ≠ gid →
        getGame (handleHit env s ws data).1.games gid' = getGame s.games gid' := by
  unfold handleHit
  rw [hm]
  obtain ⟨mrole, malive, mgid⟩ := m
  simp only at hr hgid
  subst hr
  subst hgid
  show ∃ g', getGame ((match getGame s.games gid with
      | none => (s, ([] : Sends))
      | some game =>
          let kind := hitKind data
          if kind = "enemy" then
            let game2 :=
              if r = Role.p1 then
                { game with scoresP1 := game.scoresP1 + 1 }
              else
                { game with scoresP2 := game.scoresP2 + 1 }
            let s2 := { s with games := setGame s.games game2 }
            (s2, broadcastScoreUpdateForGame env s2 game2)
          else (s, [])).1.games) gid = some g' ∧
      g'.score r = g.score r + 1 ∧ g'.score r.other = g.score r.other ∧
      ∀ gid', gid' ≠ gid →
        getGame ((match getGame s.games gid with
          | none => (s, ([] : Sends))
          | some game =>
              let kind := hitKind data
              if kind = "enemy" then
                let game2 :=
                  if r = Role.p1 then
                    { game with scoresP1 := game.scoresP1 + 1 }
                  else
                    { game with scoresP2 := game.scoresP2 + 1 }
                let s2 := { s with games := setGame s.games game2 }
                (s2, broadcastScoreUpdateForGame env s2 game2)
              else (s, [])).1.games) gid' = getGame s.games gid'
  rw [hget, hk]
  have hgidg := (getGame_mem hget).2
  cases r
  · refine ⟨{ g with scoresP1 := g.scoresP1 + 1 }, ?_, rfl, rfl, ?_⟩
    · show getGame (setGame s.games { g with scoresP1 := g.scoresP1 + 1 }) gid =
        some { g with scoresP1 := g.scoresP1 + 1 }
      have hidb : ({ g with scoresP1 := g.scoresP1 + 1 } : Game).id = gid := hgidg
      rw [← hidb]
      exact getGame_setGame_self (by rw [hidb]; exact hget)
    · intro gid' hne
      show getGame (setGame s.games { g with scoresP1 := g.scoresP1 + 1 }) gid' = _
      exact getGame_setGame_ne _ _ _ (by
        show gid' ≠ ({ g with scoresP1 := g.scoresP1 + 1 } : Game).id
        rw [show ({ g with scoresP1 := g.scoresP1 + 1 } : Game).id = gid from hgidg]
        exact hne)
  · refine ⟨{ g with scoresP2 := g.scoresP2 + 1 }, ?_, rfl, rfl, ?_⟩
    · show getGame (setGame s.games { g with scoresP2 := g.scoresP2 + 1 }) gid =
        some { g with scoresP2 := g.scoresP2 + 1 }
      have hidb : ({ g with scoresP2 := g.scoresP2 + 1 } : Game).id = gid := hgidg
      rw [← hidb]
      exact getGame_setGame_self (by rw [hidb]; exact hget)
    · intro gid' hne
      show getGame (setGame s.games { g with scoresP2 := g.scoresP2 + 1 }) gid' = _
      exact getGame_setGame_ne _ _ _ (by
        show gid' ≠ ({ g with scoresP2 := g.scoresP2 + 1 } : Game).id
        rw [show ({ g with scoresP2 := g.scoresP2 + 1 } : Game).id = gid from hgidg]
        exact hne)

/-- A reset-request from a connection with a session zeroes exactly that
session's two counters. -/
theorem handleResetMatch_zero {env : Env} {s : ServerState} {ws : ConnId}
    {m : Meta} {gid : Nat} {g : Game}
    (hm : mlookup s.clientMeta ws = some m)
    (hgid : m.gameId = some gid) (hget : getGame s.games gid = some g) :
    ∃ g', getGame (handleResetMatch env s ws).1.games gid = some g' ∧
      g'.scoresP1 = 0 ∧ g'.scoresP2 = 0 ∧
      ∀ gid', gid' ≠ gid →
        getGame (handleResetMatch env s ws).1.games gid' = getGame s.games gid' := by
  unfold handleResetMatch
  rw [hm]
  obtain ⟨mrole, malive, mgid⟩ := m
  simp only at hgid
  subst hgid
  show ∃ g', getGame ((match getGame s.games gid with
      | none => (s, ([] : Sends))
      | some game => resetMatchForGame env s game).1.games) gid = some g' ∧
      g'.scoresP1 = 0 ∧ g'.scoresP2 = 0 ∧
      ∀ gid', gid' ≠ gid →
        getGame ((match getGame s.games gid with
          | none => (s, ([] : Sends))
          | some game => resetMatchForGame env s game).1.games) gid' =
          getGame s.games gid'
  rw [hget]
  have hgidg := (getGame_mem hget).2
  refine ⟨{ g with scoresP1 := 0, scoresP2 := 0 }, ?_, rfl, rfl, ?_⟩
  · show getGame (setGame s.games { g with scoresP1 := 0, scoresP2 := 0 }) gid =
      some { g with scoresP1 := 0, scoresP2 := 0 }
    have hidb : ({ g with scoresP1 := 0, scoresP2 := 0 } : Game).id = gid := hgidg
    rw [← hidb]
    exact getGame_setGame_self (by rw [hidb]; exact hget)
  · intro gid' hne
    show getGame (setGame s.games { g with scoresP1 := 0, scoresP2 := 0 }) gid' = _
    exact getGame_setGame_ne _ _ _ (by
      show gid' ≠ ({ g with scoresP1 := 0, scoresP2 := 0 } : Game).id
      rw [show ({ g with scoresP1 := 0, scoresP2 := 0 } : Game).id = gid from hgidg]
      exact hne)

/-- Any event that is not a hit-message or reset-message preserves the
scores of every surviving same-id game. -/
theorem scoresAgree_step {env : Env} {s : ServerState} {e : Event}
    (hInv : Inv s)
    (hns : ∀ ws data, e = Event.message ws (some data) →
      (data.getField "type").asStr ≠ some "hit" ∧
      (data.getField "type").asStr ≠ some "reset-match") :
    scoresAgree s.games (step env s e).1.games := by
  cases e with
  | connect c => exact scoresAgree_refl hInv.2.1
  | pong c => exact scoresAgree_refl hInv.2.1
  | close c => exact scoresAgree_of_mono hInv.2.1 (scoresMono_onClose s c)
  | tick =>
      show scoresAgree s.games (heartbeatTick s).1.games
      unfold heartbeatTick
      show scoresAgree s.games
        ((match heartbeatLoop (s.clientMeta.map Prod.fst) s.clientMeta with
          | (cm2, term, pinged) =>
            (term.foldl onClose { s with clientMeta := cm2 }, term, pinged)).1.games)
      rcases hL : heartbeatLoop (s.clientMeta.map Prod.fst) s.clientMeta
        with ⟨cm2, term, pinged⟩
      exact scoresAgree_of_mono hInv.2.1
        (scoresMono_foldl_onClose term { s with clientMeta := cm2 })
  | message c raw =>
      rcases raw with _ | data
      · exact scoresAgree_refl hInv.2.1
      show scoresAgree s.games
        ((if data.truthy = true then
          (match (data.getField "type").asStr with
            | none => (s, ([] : Sends))
            | some ty =>
                if ty = "hello" then handleHello env s c data
                else if ty = "state" then (s, handleState env s c data)
                else if ty = "shot" then (s, handleShot env s c data)
                else if ty = "hit" then handleHit env s c data
                else if ty = "reset-match" then handleResetMatch env s c
                else (s, []))
        else (s, [])).1.games)
      by_cases htr : data.truthy = true
      · rw [if_pos htr]
        rcases hty : (data.getField "type").asStr with _ | ty
        · exact scoresAgree_refl hInv.2.1
        show scoresAgree s.games
          ((if ty = "hello" then handleHello env s c data
            else if ty = "state" then (s, handleState env s c data)
            else if ty = "shot" then (s, handleShot env s c data)
            else if ty = "hit" then handleHit env s c data
            else if ty = "reset-match" then handleResetMatch env s c
            else (s, [])).1.games)
        by_cases h1 : ty = "hello"
        · rw [if_pos h1]
          exact scoresAgree_assign hInv
        rw [if_neg h1]
        by_cases h2 : ty = "state"
        · rw [if_pos h2]
          exact scoresAgree_refl hInv.2.1
        rw [if_neg h2]
        by_cases h3 : ty = "shot"
        · rw [if_pos h3]
          exact scoresAgree_refl hInv.2.1
        rw [if_neg h3]
        by_cases h4 : ty = "hit"
        · exact absurd (h4 ▸ hty) (hns c data rfl).1
        rw [if_neg h4]
        by_cases h5 : ty = "reset-match"
        · exact absurd (h5 ▸ hty) (hns c data rfl).2
        rw [if_neg h5]
        exact scoresAgree_refl hInv.2.1
      · rw [if_neg htr]
        exact scoresAgree_refl hInv.2.1

/-- A hit payload with no `kind` field at all. -/
def hitNoKind : JVal := .obj [("type", .str "hit")]

/-- C1 counterexample: in the two-player state `sW`, a score-event whose
`kind` field is absent (so not the string `"enemy"`) still increments the
sender's counter — the code defaults a missing or non-string `kind` to
`"enemy"`, contradicting "a score-event carrying any other kind value
leaves all state unchanged". -/
theorem spec_C1_counterexample :
    hitNoKind.getField "kind" = JVal.jsUndefined ∧
    getGame sW.games 1 = some gW ∧ gW.scoresP1 = 0 ∧
    (∃ g', getGame (step envW sW (.message 10 (some hitNoKind))).1.games 1 =
      some g' ∧ g'.scoresP1 = 1) :=
  ⟨rfl, by decide, rfl, ⟨⟨1, some 10, some 20, 1, 0⟩, by decide, rfl⟩⟩

/-- C1 amended: scores are always non-negative; a score-event whose
computed kind (`"enemy"` when the field is missing or not a string) is
`"enemy"` increments the sender's own counter by 1 and touches nothing
else; a score-event with a string kind other than `"enemy"` is a complete
no-op; a reset-request zeroes both counters of the sender's session; and
every other event preserves the scores of every surviving session. -/
theorem spec_C1_amended {s : ServerState} (h : Reachable s) :
    (∀ g ∈ s.games, 0 ≤ g.scoresP1 ∧ 0 ≤ g.scoresP2) ∧
    (∀ (env : Env) (ws : ConnId) (data : JVal), hitKind data ≠ "enemy" →
      handleHit env s ws data = (s, [])) ∧
    (∀ (env : Env) (ws : ConnId) (data : JVal) m r gid g,
      hitKind data = "enemy" →
      mlookup s.clientMeta ws = some m → m.role = some r →
      m.gameId = some gid → getGame s.games gid = some g →
      ∃ g', getGame (handleHit env s ws data).1.games gid = some g' ∧
        g'.score r = g.score r + 1 ∧ g'.score r.other = g.score r.other ∧
        ∀ gid', gid' ≠ gid →
          getGame (handleHit env s ws data).1.games gid' =
            getGame s.games gid') ∧
    (∀ (env : Env) (ws : ConnId) m gid g,
      mlookup s.clientMeta ws = some m → m.gameId = some gid →
      getGame s.games gid = some g →
      ∃ g', getGame (handleResetMatch env s ws).1.games gid = some g' ∧
        g'.scoresP1 = 0 ∧ g'.scoresP2 = 0 ∧
        ∀ gid', gid' ≠ gid →
          getGame (handleResetMatch env s ws).1.games gid' =
            getGame s.games gid') ∧
    (∀ (env : Env) (e : Event),
      (∀ ws data, e = Event.message ws (some data) →
        (data.getField "type").asStr ≠ some "hit" ∧
        (data.getField "type").asStr ≠ some "reset-match") →
      scoresAgree s.games (step env s e).1.games) := by
  have hInv := inv_of_reachable h
  refine ⟨hInv.2.2.2.2.2, ?_, ?_, ?_, ?_⟩
  · intro env ws data hk
    exact handleHit_not_enemy hk
  · intro env ws data m r gid g hk hm hr hgid hget
    exact handleHit_enemy hk hm hr hgid hget
  · intro env ws m gid g hm hgid hget
    exact handleResetMatch_zero hm hgid hget
  · intro env e hns
    exact scoresAgree_step hInv hns

theorem spec_C1_amended_witness :
    hitKind (.obj [("type", .str "hit"), ("kind", .str "friend")]) ≠ "enemy" ∧
    (∀ g ∈ sW.games, 0 ≤ g.scoresP1 ∧ 0 ≤ g.scoresP2) ∧
    handleHit envW sW 10 (.obj [("type", .str "hit"), ("kind", .str "friend")]) =
      (sW, []) :=
  ⟨by decide, (spec_C1_amended sW_reachable).1,
   (spec_C1_amended sW_reachable).2.1 envW 10
     (.obj [("type", .str "hit"), ("kind", .str "friend")]) (by decide)⟩

/-! ### C9 -/

theorem mem_keys_of_mlookup {m : List (ConnId × Meta)} {c : ConnId} {v : Meta}
    (h : mlookup m c = some v) : c ∈ m.map Prod.fst := by
  induction m with
  | nil => cases h
  | cons kw rest ih =>
      obtain ⟨k, w⟩ := kw
      by_cases hk : k = c
      · subst hk
        exact List.mem_cons_self _ _
      · rw [mlookup, if_neg hk] at h
        exact List.mem_cons_of_mem _ (ih h)

theorem mlookup_mdelete_none {m : List (ConnId × Meta)} {c : ConnId}
    (h : mlookup m c = none) (c0 : ConnId) :
    mlookup (mdelete m c0) c = none := by
  induction m with
  | nil => rfl
  | cons kw rest ih =>
      obtain ⟨k, w⟩ := kw
      rw [mlookup] at h
      by_cases hk : k = c
      · rw [if_pos hk] at h
        cases h
      · rw [if_neg hk] at h
        rw [mdelete]
        by_cases hk0 : k = c0
        · rw [if_pos hk0]
          exact h
        · rw [if_neg hk0, mlookup, if_neg hk]
          exact ih h

theorem foldl_onClose_lookup_none (l : List ConnId) :
    ∀ (st : ServerState) (c : ConnId), mlookup st.clientMeta c = none →
      mlookup ((l.foldl onClose st)).clientMeta c = none := by
  induction l with
  | nil => exact fun st c h => h
  | cons c0 rest ih =>
      intro st c h
      refine ih (onClose st c0) c ?_
      rw [onClose_clientMeta]
      exact mlookup_mdelete_none h c0

theorem onClose_keys_nodup {st : ServerState} (c : ConnId)
    (h : (st.clientMeta.map Prod.fst).Nodup) :
    ((onClose st c).clientMeta.map Prod.fst).Nodup := by
  rw [onClose_clientMeta]
  exact keys_nodup_mdelete _ _ h

theorem foldl_onClose_lookup_mem (l : List ConnId) :
    ∀ (st : ServerState) (c : ConnId), c ∈ l →
      (st.clientMeta.map Prod.fst).Nodup →
      mlookup ((l.foldl onClose st)).clientMeta c = none := by
  induction l with
  | nil => intro st c h; cases h
  | cons c0 rest ih =>
      intro st c h hn
      by_cases hc : c0 = c
      · subst hc
        refine foldl_onClose_lookup_none rest (onClose st c0) c0 ?_
        rw [onClose_clientMeta]
        exact mlookup_mdelete_self _ _ hn
      · rcases List.mem_cons.mp h with h | h
        · exact absurd h.symm hc
        · exact ih (onClose st c0) c h (onClose_keys_nodup c0 hn)

theorem foldl_onClose_lookup_not_mem (l : List ConnId) :
    ∀ (st : ServerState) (c : ConnId), c ∉ l →
      mlookup ((l.foldl onClose st)).clientMeta c = mlookup st.clientMeta c := by
  induction l with
  | nil => exact fun st c _ => rfl
  | cons c0 rest ih =>
      intro st c h
      rw [List.mem_cons] at h
      push_neg at h
      rw [List.foldl_cons, ih (onClose st c0) c h.2, onClose_clientMeta,
        mlookup_mdelete_ne _ _ _ h.1]

/-- Exact behavior of one heartbeat sweep over a duplicate-free socket
list: a socket whose record is dead is collected for termination (and its
record is left alone by the sweep itself), a live one is flipped to
`isAlive = false` and pinged, unknown sockets are untouched, and the
collected list has no duplicates. -/
theorem heartbeatLoop_spec (conns : List ConnId) :
    ∀ cm : List (ConnId × Meta), conns.Nodup →
      (∀ c, c ∉ conns →
        c ∉ (heartbeatLoop conns cm).2.1 ∧ c ∉ (heartbeatLoop conns cm).2.2 ∧
        mlookup (heartbeatLoop conns cm).1 c = mlookup cm c) ∧
      (∀ c, c ∈ conns → mlookup cm c = none →
        c ∉ (heartbeatLoop conns cm).2.1 ∧ c ∉ (heartbeatLoop conns cm).2.2 ∧
        mlookup (heartbeatLoop conns cm).1 c = none) ∧
      (∀ c m, c ∈ conns → mlookup cm c = some m →
        (m.isAlive = false →
          c ∈ (heartbeatLoop conns cm).2.1 ∧ c ∉ (heartbeatLoop conns cm).2.2 ∧
          mlookup (heartbeatLoop conns cm).1 c = some m) ∧
        (m.isAlive = true →
          c ∉ (heartbeatLoop conns cm).2.1 ∧ c ∈ (heartbeatLoop conns cm).2.2 ∧
          mlookup (heartbeatLoop conns cm).1 c =
            some { m with isAlive := false })) ∧
      (heartbeatLoop conns cm).2.1.Nodup := by
  induction conns with
  | nil =>
      intro cm _
      exact ⟨fun c _ => ⟨List.not_mem_nil c, List.not_mem_nil c, rfl⟩,
        fun c h => absurd h (List.not_mem_nil c),
        fun c m h => absurd h (List.not_mem_nil c),
        List.nodup_nil⟩
  | cons ws rest ih =>
      intro cm hnodup
      rw [List.nodup_cons] at hnodup
      rcases hm : mlookup cm ws with _ | meta
      · -- skipped socket: continue on rest with the same map
        have hstep : heartbeatLoop (ws :: rest) cm = heartbeatLoop rest cm := by
          rw [heartbeatLoop, hm]
        rw [hstep]
        obtain ⟨ih1, ih2, ih3, ih4⟩ := ih cm hnodup.2
        refine ⟨?_, ?_, ?_, ih4⟩
        · intro c hc
          rw [List.mem_cons] at hc
          push_neg at hc
          exact ih1 c hc.2
        · intro c hc hl
          rcases List.mem_cons.mp hc with hc | hc
          · subst hc
            obtain ⟨h1, h2, h3⟩ := ih1 c hnodup.1
            exact ⟨h1, h2, h3.trans hl⟩
          · exact ih2 c hc hl
        · intro c m hc hl
          rcases List.mem_cons.mp hc with hc | hc
          · subst hc
            rw [hm] at hl
            cases hl
          · exact ih3 c m hc hl
      · by_cases ha : meta.isAlive = true
        · -- live socket: flip the flag, ping, continue on the updated map
          rcases hL : heartbeatLoop rest
            (mupdate cm ws (fun m => { m with isAlive := false }))
            with ⟨cm3, term, pinged⟩
          have hstep : heartbeatLoop (ws :: rest) cm = (cm3, term, ws :: pinged) := by
            rw [heartbeatLoop, hm]
            show (if meta.isAlive = true then
                (match heartbeatLoop rest
                  (mupdate cm ws (fun m => { m with isAlive := false })) with
                 | (cm3, term, pinged) => (cm3, term, ws :: pinged))
              else
                (match heartbeatLoop rest cm with
                 | (cm3, term, pinged) => (cm3, ws :: term, pinged))) = _
            rw [if_pos ha, hL]
          rw [hstep]
          obtain ⟨ih1, ih2, ih3, ih4⟩ := ih
            (mupdate cm ws (fun m => { m with isAlive := false })) hnodup.2
          rw [hL] at ih1 ih2 ih3 ih4
          refine ⟨?_, ?_, ?_, ih4⟩
          · intro c hc
            rw [List.mem_cons] at hc
            push_neg at hc
            obtain ⟨h1, h2, h3⟩ := ih1 c hc.2
            refine ⟨h1, ?_, ?_⟩
            · intro hmem
              rcases List.mem_cons.mp hmem with hmem | hmem
              · exact hc.1 hmem
              · exact h2 hmem
            · rw [h3, mlookup_mupdate_ne _ _ _ _ hc.1]
          · intro c hc hl
            rcases List.mem_cons.mp hc with hc | hc
            · subst hc
              rw [hm] at hl
              cases hl
            · have hcws : c ≠ ws := fun he => hnodup.1 (he ▸ hc)
              obtain ⟨h1, h2, h3⟩ := ih2 c hc
                (by rw [mlookup_mupdate_ne _ _ _ _ hcws]; exact hl)
              refine ⟨h1, ?_, h3⟩
              intro hmem
              rcases List.mem_cons.mp hmem with hmem | hmem
              · exact hcws hmem
              · exact h2 hmem
          · intro c m hc hl
            rcases List.mem_cons.mp hc with hc | hc
            · subst hc
              rw [hm] at hl
              injection hl with hl
              subst hl
              obtain ⟨h1, h2, h3⟩ := ih1 c hnodup.1
              constructor
              · intro hfalse
                rw [ha] at hfalse
                cases hfalse
              · intro _
                refine ⟨h1, List.mem_cons_self _ _, ?_⟩
                rw [h3, mlookup_mupdate_self, hm]
                rfl
            · have hcws : c ≠ ws := fun he => hnodup.1 (he ▸ hc)
              have hl2 : mlookup (mupdate cm ws
                  (fun m => { m with isAlive := false })) c = some m := by
                rw [mlookup_mupdate_ne _ _ _ _ hcws]
                exact hl
              obtain ⟨hdead, halive⟩ := ih3 c m hc hl2
              constructor
              · intro hfalse
                obtain ⟨h1, h2, h3⟩ := hdead hfalse
                refine ⟨h1, ?_, h3⟩
                intro hmem
                rcases List.mem_cons.mp hmem with hmem | hmem
                · exact hcws hmem
                · exact h2 hmem
              · intro htrue
                obtain ⟨h1, h2, h3⟩ := halive htrue
                exact ⟨h1, List.mem_cons_of_mem _ h2, h3⟩
        · -- dead socket: collect it for termination, continue unchanged
          rcases hL : heartbeatLoop rest cm with ⟨cm3, term, pinged⟩
          have hstep : heartbeatLoop (ws :: rest) cm = (cm3, ws :: term, pinged) := by
            rw [heartbeatLoop, hm]
            show (if meta.isAlive = true then
                (match heartbeatLoop rest
                  (mupdate cm ws (fun m => { m with isAlive := false })) with
                 | (cm3, term, pinged) => (cm3, term, ws :: pinged))
              else
                (match heartbeatLoop rest cm with
                 | (cm3, term, pinged) => (cm3, ws :: term, pinged))) = _
            rw [if_neg ha, hL]
          rw [hstep]
          obtain ⟨ih1, ih2, ih3, ih4⟩ := ih cm hnodup.2
          rw [hL] at ih1 ih2 ih3 ih4
          have hwsterm : ws ∉ term := (ih1 ws hnodup.1).1
          refine ⟨?_, ?_, ?_, ?_⟩
          · intro c hc
            rw [List.mem_cons] at hc
            push_neg at hc
            obtain ⟨h1, h2, h3⟩ := ih1 c hc.2
            refine ⟨?_, h2, h3⟩
            intro hmem
            rcases List.mem_cons.mp hmem with hmem | hmem
            · exact hc.1 hmem
            · exact h1 hmem
          · intro c hc hl
            rcases List.mem_cons.mp hc with hc | hc
            · subst hc
              rw [hm] at hl
              cases hl
            · have hcws : c ≠ ws := fun he => hnodup.1 (he ▸ hc)
              obtain ⟨h1, h2, h3⟩ := ih2 c hc hl
              refine ⟨?_, h2, h3⟩
              intro hmem
              rcases List.mem_cons.mp hmem with hmem | hmem
              · exact hcws hmem
              · exact h1 hmem
          · intro c m hc hl
            rcases List.mem_cons.mp hc with hc | hc
            · subst hc
              rw [hm] at hl
              injection hl with hl
              subst hl
              obtain ⟨h1, h2, h3⟩ := ih1 c hnodup.1
              constructor
              · intro _
                exact ⟨List.mem_cons_self _ _, h2, h3.trans hm⟩
              · intro htrue
                rw [htrue] at ha
                exact absurd rfl ha
            · have hcws : c ≠ ws := fun he => hnodup.1 (he ▸ hc)
              obtain ⟨hdead, halive⟩ := ih3 c m hc hl
              constructor
              · intro hfalse
                obtain ⟨h1, h2, h3⟩ := hdead hfalse
                exact ⟨List.mem_cons_of_mem _ h1, h2, h3⟩
              · intro htrue
                obtain ⟨h1, h2, h3⟩ := halive htrue
                refine ⟨?_, h2, h3⟩
                intro hmem
                rcases List.mem_cons.mp hmem with hmem | hmem
                · exact hcws hmem
                · exact h1 hmem
          · rw [List.nodup_cons]
            exact ⟨hwsterm, ih4⟩

/-- Behavior of one full heartbeat tick on a state whose invariant holds:
an unregistered socket is untouched; a registered socket whose flag is
down is terminated exactly once and its record is gone afterwards; a
registered socket whose flag is up is pinged, not terminated, and its
flag is lowered. -/
theorem heartbeatTick_spec {s : ServerState} (hInv : Inv s) :
    (∀ c, mlookup s.clientMeta c = none →
      c ∉ (heartbeatTick s).2.1 ∧
      mlookup (heartbeatTick s).1.clientMeta c = none) ∧
    (∀ c m, mlookup s.clientMeta c = some m →
      (m.isAlive = false →
        List.count c (heartbeatTick s).2.1 = 1 ∧
        mlookup (heartbeatTick s).1.clientMeta c = none) ∧
      (m.isAlive = true →
        c ∉ (heartbeatTick s).2.1 ∧
        c ∈ (heartbeatTick s).2.2 ∧
        mlookup (heartbeatTick s).1.clientMeta c =
          some { m with isAlive := false })) := by
  have hflags := heartbeatLoop_flagsOnly (s.clientMeta.map Prod.fst) s.clientMeta
  have hspec := heartbeatLoop_spec (s.clientMeta.map Prod.fst) s.clientMeta hInv.1
  unfold heartbeatTick
  show (∀ c, mlookup s.clientMeta c = none →
      c ∉ ((match heartbeatLoop (s.clientMeta.map Prod.fst) s.clientMeta with
        | (cm2, term, pinged) =>
          (term.foldl onClose { s with clientMeta := cm2 }, term, pinged))).2.1 ∧
      mlookup ((match heartbeatLoop (s.clientMeta.map Prod.fst) s.clientMeta with
        | (cm2, term, pinged) =>
          (term.foldl onClose { s with clientMeta := cm2 }, term,
            pinged))).1.clientMeta c = none) ∧
    (∀ c m, mlookup s.clientMeta c = some m →
      (m.isAlive = false →
        List.count c ((match heartbeatLoop (s.clientMeta.map Prod.fst)
            s.clientMeta with
          | (cm2, term, pinged) =>
            (term.foldl onClose { s with clientMeta := cm2 }, term,
              pinged))).2.1 = 1 ∧
        mlookup ((match heartbeatLoop (s.clientMeta.map Prod.fst)
            s.clientMeta with
          | (cm2, term, pinged) =>
            (term.foldl onClose { s with clientMeta := cm2 }, term,
              pinged))).1.clientMeta c = none) ∧
      (m.isAlive = true →
        c ∉ ((match heartbeatLoop (s.clientMeta.map Prod.fst) s.clientMeta with
          | (cm2, term, pinged) =>
            (term.foldl onClose { s with clientMeta := cm2 }, term,
              pinged))).2.1 ∧
        c ∈ ((match heartbeatLoop (s.clientMeta.map Prod.fst) s.clientMeta with
          | (cm2, term, pinged) =>
            (term.foldl onClose { s with clientMeta := cm2 }, term,
              pinged))).2.2 ∧
        mlookup ((match heartbeatLoop (s.clientMeta.map Prod.fst)
            s.clientMeta with
          | (cm2, term, pinged) =>
            (term.foldl onClose { s with clientMeta := cm2 }, term,
              pinged))).1.clientMeta c =
          some { m with isAlive := false }))
  rcases hL : heartbeatLoop (s.clientMeta.map Prod.fst) s.clientMeta
    with ⟨cm2, term, pinged⟩
  rw [hL] at hflags hspec
  obtain ⟨hs1, hs2, hs3, hs4⟩ := hspec
  have hcm2nodup : (cm2.map Prod.fst).Nodup := by
    rw [hflags.1]
    exact hInv.1
  refine ⟨?_, ?_⟩
  · intro c hc
    have hck : c ∉ s.clientMeta.map Prod.fst := by
      intro hmem
      have hv := mlookup_isSome_of_mem s.clientMeta c hmem
      rw [hc] at hv
      cases hv
    obtain ⟨h1, _, h3⟩ := hs1 c hck
    refine ⟨h1, ?_⟩
    refine foldl_onClose_lookup_none term { s with clientMeta := cm2 } c ?_
    show mlookup cm2 c = none
    rw [h3]
    exact hc
  · intro c m hc
    have hck : c ∈ s.clientMeta.map Prod.fst := mem_keys_of_mlookup hc
    obtain ⟨hdead, halive⟩ := hs3 c m hck hc
    constructor
    · intro hfalse
      obtain ⟨h1, _, _⟩ := hdead hfalse
      constructor
      · exact List.nodup_iff_count_eq_one.mp hs4 c h1
      · exact foldl_onClose_lookup_mem term { s with clientMeta := cm2 } c h1
          hcm2nodup
    · intro htrue
      obtain ⟨h1, h2, h3⟩ := halive htrue
      refine ⟨h1, h2, ?_⟩
      rw [foldl_onClose_lookup_not_mem term { s with clientMeta := cm2 } c h1]
      exact h3

/-- C9: under the liveness monitor, a registered connection whose alive
flag is false at a tick is terminated at that tick and its disconnect
cleanup runs exactly once (its record is gone afterwards); one whose flag
is true is pinged and has the flag set false; a pong sets the flag back to
true; and consequently a registered connection that never responds is no
longer known to the server after two consecutive ticks, its cleanup
having run exactly once over those two ticks. -/
theorem spec_C9 {s : ServerState} (h : Reachable s) :
    (∀ c m, mlookup s.clientMeta c = some m → m.isAlive = false →
      List.count c (heartbeatTick s).2.1 = 1 ∧
      mlookup (heartbeatTick s).1.clientMeta c = none) ∧
    (∀ c m, mlookup s.clientMeta c = some m → m.isAlive = true →
      c ∈ (heartbeatTick s).2.2 ∧
      mlookup (heartbeatTick s).1.clientMeta c =
        some { m with isAlive := false }) ∧
    (∀ c, mlookup (onPong s c).clientMeta c =
      (mlookup s.clientMeta c).map (fun m => { m with isAlive := true })) ∧
    (∀ c m, mlookup s.clientMeta c = some m →
      mlookup (heartbeatTick (heartbeatTick s).1).1.clientMeta c = none ∧
      List.count c ((heartbeatTick s).2.1 ++
        (heartbeatTick (heartbeatTick s).1).2.1) = 1) := by
  have hInv := inv_of_reachable h
  have hT1 := heartbeatTick_spec hInv
  have hT2 := heartbeatTick_spec (inv_heartbeatTick hInv)
  refine ⟨?_, ?_, ?_, ?_⟩
  · intro c m hc hfalse
    exact (hT1.2 c m hc).1 hfalse
  · intro c m hc htrue
    obtain ⟨_, h2, h3⟩ := (hT1.2 c m hc).2 htrue
    exact ⟨h2, h3⟩
  · intro c
    show mlookup (mupdate s.clientMeta c (fun m => { m with isAlive := true })) c = _
    exact mlookup_mupdate_self _ _ _
  · intro c m hc
    rcases Bool.eq_false_or_eq_true m.isAlive with htrue | hfalse
    · obtain ⟨hnotin1, _, hsome1⟩ := (hT1.2 c m hc).2 htrue
      obtain ⟨hcount2, hnone2⟩ :=
        (hT2.2 c { m with isAlive := false } hsome1).1 rfl
      refine ⟨hnone2, ?_⟩
      rw [List.count_append, hcount2, List.count_eq_zero_of_not_mem hnotin1]
    · obtain ⟨hcount1, hnone1⟩ := (hT1.2 c m hc).1 hfalse
      obtain ⟨hnotin2, hnone2⟩ := hT2.1 c hnone1
      refine ⟨hnone2, ?_⟩
      rw [List.count_append, hcount1, List.count_eq_zero_of_not_mem hnotin2]

theorem spec_C9_witness :
    mlookup sW.clientMeta 10 = some ⟨some .p1, true, some 1⟩ ∧
    (10 ∈ (heartbeatTick sW).2.2 ∧
     mlookup (heartbeatTick sW).1.clientMeta 10 =
       some ⟨some .p1, false, some 1⟩) ∧
    (mlookup (heartbeatTick (heartbeatTick sW).1).1.clientMeta 10 = none ∧
     List.count 10 ((heartbeatTick sW).2.1 ++
       (heartbeatTick (heartbeatTick sW).1).2.1) = 1) :=
  ⟨by decide,
   (spec_C9 sW_reachable).2.1 10 ⟨some .p1, true, some 1⟩ (by decide) rfl,
   (spec_C9 sW_reachable).2.2.2 10 ⟨some .p1, true, some 1⟩ (by decide)⟩

end SnapServer
